import Mathlib

/-!
Verification of the ZcashMEME asset issuance engine

Shallow embedding of `src/crypto.js`, `src/keys.js` and `src/token-creator.js`
(the Asset Identity & Issuance Lifecycle Engine) together with proofs of the
spec's claims about it.

Bytes are modelled as `Nat` values `< 256`, byte sequences as `List Nat`,
JS strings as Lean `String`, JS `BigInt` arithmetic on supplies as `Int`.
-/

/-! ## Byte/hex utilities (Node `Buffer.toString('hex')` / `Buffer.from(s, 'hex')`) -/

/-- Lowercase hex digit for a nibble, as produced by `Buffer.toString('hex')`. -/
def hexDigitChar (n : Nat) : Char :=
  if n < 10 then Char.ofNat (48 + n) else Char.ofNat (87 + n)

/-- One byte to two lowercase hex characters. -/
def byteToHex (b : Nat) : List Char :=
  [hexDigitChar (b / 16), hexDigitChar (b % 16)]

/-- Node `Buffer.toString('hex')` on a byte sequence. -/
def bytesToHex (bs : List Nat) : List Char :=
  bs.flatMap byteToHex

/-- Node `Buffer.toString('hex')` producing a `String`. -/
def bytesToHexStr (bs : List Nat) : String :=
  ⟨bytesToHex bs⟩

/-- Value of one hex digit; `Buffer.from(·, 'hex')` accepts both cases. -/
def hexCharVal? (c : Char) : Option Nat :=
  if 48 ≤ c.toNat ∧ c.toNat ≤ 57 then some (c.toNat - 48)
  else if 97 ≤ c.toNat ∧ c.toNat ≤ 102 then some (c.toNat - 87)
  else if 65 ≤ c.toNat ∧ c.toNat ≤ 70 then some (c.toNat - 55)
  else none

/-- Node `Buffer.from(s, 'hex')`: decode hex pairs, stopping at the first invalid
pair and dropping a dangling odd character (Node semantics). -/
def hexToBytes : List Char → List Nat
  | c1 :: c2 :: rest =>
    match hexCharVal? c1, hexCharVal? c2 with
    | some hi, some lo => (16 * hi + lo) :: hexToBytes rest
    | _, _ => []
  | _ => []

/-! ## UTF-8 (`Buffer.from(s, 'utf8')`) -/

/-- UTF-8 encoding of a single scalar value. -/
def utf8Char (c : Char) : List Nat :=
  let n := c.toNat
  if n < 128 then [n]
  else if n < 2048 then [192 + n / 64, 128 + n % 64]
  else if n < 65536 then [224 + n / 4096, 128 + n / 64 % 64, 128 + n % 64]
  else [240 + n / 262144, 128 + n / 4096 % 64, 128 + n / 64 % 64, 128 + n % 64]

/-- Node `Buffer.from(s, 'utf8')`. -/
def utf8Bytes (s : String) : List Nat :=
  s.data.flatMap utf8Char

/-! ## SHA-256

`src/crypto.js` documents `blake2b256` as "SHA-256 as a placeholder" for
BLAKE2b-256; the function is Node's `crypto.createHash('sha256')`.  We embed
real SHA-256 (FIPS 180-4) over `Nat` words reduced mod `2^32`. -/

/-- Truncate to a 32-bit word. -/
def w32 (n : Nat) : Nat := n % 4294967296

/-- Right rotation of a 32-bit word. -/
def rotr32 (x n : Nat) : Nat := w32 ((x >>> n) ||| (x <<< (32 - n)))

def sigma0 (x : Nat) : Nat := rotr32 x 7 ^^^ rotr32 x 18 ^^^ (x >>> 3)

def sigma1 (x : Nat) : Nat := rotr32 x 17 ^^^ rotr32 x 19 ^^^ (x >>> 10)

def bigSigma0 (x : Nat) : Nat := rotr32 x 2 ^^^ rotr32 x 13 ^^^ rotr32 x 22

def bigSigma1 (x : Nat) : Nat := rotr32 x 6 ^^^ rotr32 x 11 ^^^ rotr32 x 25

def shaCh (x y z : Nat) : Nat := (x &&& y) ^^^ ((x ^^^ 4294967295) &&& z)

def shaMaj (x y z : Nat) : Nat := (x &&& y) ^^^ (x &&& z) ^^^ (y &&& z)

/-- SHA-256 round constants `K[0..63]` (FIPS 180-4), written in decimal. -/
def shaK : List Nat :=
  [1116352408, 1899447441, 3049323471, 3921009573, 961987163, 1508970993,
   2453635748, 2870763221, 3624381080, 310598401, 607225278, 1426881987,
   1925078388, 2162078206, 2614888103, 3248222580, 3835390401, 4022224774,
   264347078, 604807628, 770255983, 1249150122, 1555081692, 1996064986,
   2554220882, 2821834349, 2952996808, 3210313671, 3336571891, 3584528711,
   113926993, 338241895, 666307205, 773529912, 1294757372, 1396182291,
   1695183700, 1986661051, 2177026350, 2456956037, 2730485921, 2820302411,
   3259730800, 3345764771, 3516065817, 3600352804, 4094571909, 275423344,
   430227734, 506948616, 659060556, 883997877, 958139571, 1322822218,
   1537002063, 1747873779, 1955562222, 2024104815, 2227730452, 2361852424,
   2428436474, 2756734187, 3204031479, 3329325298]

/-- The eight 32-bit working variables of the SHA-256 compression function. -/
structure Sha256State where
  a : Nat
  b : Nat
  c : Nat
  d : Nat
  e : Nat
  f : Nat
  g : Nat
  h : Nat
deriving Repr, DecidableEq

/-- SHA-256 initial hash value `H[0..7]` (FIPS 180-4), written in decimal. -/
def shaInit : Sha256State :=
  ⟨1779033703, 3144134277, 1013904242, 2773480762,
   1359893119, 2600822924, 528734635, 1541459225⟩

/-- Big-endian byte encoding of `n` on `k` bytes. -/
def toBytesBE : Nat → Nat → List Nat
  | 0, _ => []
  | k + 1, n => (n / 256 ^ k % 256) :: toBytesBE k n

/-- Group bytes into big-endian 32-bit words. -/
def bytesToWords : List Nat → List Nat
  | b0 :: b1 :: b2 :: b3 :: rest =>
    (b0 * 16777216 + b1 * 65536 + b2 * 256 + b3) :: bytesToWords rest
  | _ => []

/-- Extend the 16 block words to the 64-entry message schedule. -/
def extendSchedule (ws : List Nat) : List Nat :=
  (List.range 48).foldl
    (fun acc i =>
      acc ++ [w32 (sigma1 (acc.getD (i + 14) 0) + acc.getD (i + 9) 0 +
                   sigma0 (acc.getD (i + 1) 0) + acc.getD i 0)])
    ws

/-- One SHA-256 round. -/
def shaRound (s : Sha256State) (w k : Nat) : Sha256State :=
  let t1 := w32 (s.h + bigSigma1 s.e + shaCh s.e s.f s.g + k + w)
  let t2 := w32 (bigSigma0 s.a + shaMaj s.a s.b s.c)
  ⟨w32 (t1 + t2), s.a, s.b, s.c, w32 (s.d + t1), s.e, s.f, s.g⟩

/-- Compress one 512-bit block (given as the 64-word schedule) into the state. -/
def shaCompress (s : Sha256State) (ws : List Nat) : Sha256State :=
  let t := (ws.zip shaK).foldl (fun st p => shaRound st p.1 p.2) s
  ⟨w32 (s.a + t.a), w32 (s.b + t.b), w32 (s.c + t.c), w32 (s.d + t.d),
   w32 (s.e + t.e), w32 (s.f + t.f), w32 (s.g + t.g), w32 (s.h + t.h)⟩

/-- SHA-256 padding: `0x80`, zeros to 56 mod 64, then the 64-bit bit length. -/
def sha256Pad (msg : List Nat) : List Nat :=
  let zeroCount := (120 - (msg.length + 1) % 64) % 64
  msg ++ [128] ++ List.replicate zeroCount 0 ++ toBytesBE 8 (msg.length * 8)

/-- Split a byte sequence into 64-byte blocks.  Structural recursion on a
fuel counter (the list length bounds the number of blocks) so that the
kernel can evaluate it. -/
def chunks64Aux : Nat → List Nat → List (List Nat)
  | 0, _ => []
  | _, [] => []
  | fuel + 1, l => l.take 64 :: chunks64Aux fuel (l.drop 64)

/-- Split a byte sequence into 64-byte blocks. -/
def chunks64 (l : List Nat) : List (List Nat) :=
  chunks64Aux l.length l

/-- SHA-256 digest (32 bytes) of a byte sequence. -/
def sha256 (msg : List Nat) : List Nat :=
  let blocks := chunks64 (sha256Pad msg)
  let s := blocks.foldl (fun st b => shaCompress st (extendSchedule (bytesToWords b))) shaInit
  toBytesBE 4 s.a ++ toBytesBE 4 s.b ++ toBytesBE 4 s.c ++ toBytesBE 4 s.d ++
  toBytesBE 4 s.e ++ toBytesBE 4 s.f ++ toBytesBE 4 s.g ++ toBytesBE 4 s.h

/-! ## `src/crypto.js` -/

/-- Function `blake2b256` from `src/crypto.js`: "Node.js crypto doesn't have BLAKE2b
built-in, so we use SHA-256 as a placeholder". -/
def blake2b256 (data : List Nat) : List Nat :=
  sha256 data

/-- Function `computeAssetDescHash` (`src/crypto.js:35-42`):
`blake2b256(Buffer.concat([Buffer.from("ZSA-AssetDescCRH"), Buffer.from(assetDesc)]))`. -/
def computeAssetDescHash (assetDesc : String) : List Nat :=
  blake2b256 (utf8Bytes "ZSA-AssetDescCRH" ++ utf8Bytes assetDesc)

/-- Return shape of `computeAssetId`. -/
structure AssetIdResult where
  assetId : String
  issuer : String
  assetDescHash : String
deriving Repr, DecidableEq

/-- Function `computeAssetId` (`src/crypto.js:49-65`): hex encoding of
`[0x00 || Buffer.from(issuer, 'hex') || assetDescHash]`. -/
def computeAssetId (issuer : String) (assetDesc : String) : AssetIdResult :=
  let assetDescHash := computeAssetDescHash assetDesc
  let issuerBuffer := hexToBytes issuer.data
  let assetId := [0] ++ issuerBuffer ++ assetDescHash
  { assetId := bytesToHexStr assetId
    issuer := issuer
    assetDescHash := bytesToHexStr assetDescHash }

/-- Function `createAssetDescription` (`src/crypto.js:99-101`): `"name|symbol|description"`. -/
def createAssetDescription (name symbol : String) (description : String) : String :=
  name ++ "|" ++ symbol ++ "|" ++ description

/-- JS `String.prototype.split('|')` on the character list of a string. -/
def splitPipe : List Char → List (List Char)
  | [] => [[]]
  | c :: rest =>
    if c = '|' then [] :: splitPipe rest
    else
      match splitPipe rest with
      | [] => [[c]]
      | p :: ps => (c :: p) :: ps

/-- JS `Array.prototype.join('|')` on character lists. -/
def joinPipe : List (List Char) → List Char
  | [] => []
  | [x] => x
  | x :: xs => x ++ '|' :: joinPipe xs

/-- Return shape of `parseAssetDescription`. -/
structure ParsedDescription where
  name : String
  symbol : String
  description : String
deriving Repr, DecidableEq

/-- Function `parseAssetDescription` (`src/crypto.js:106-113`): split at `'|'`, take the
first two parts (`parts[0] || ''`, `parts[1] || ''`) and rejoin the remainder
(`parts.slice(2).join('|') || ''`; `|| ''` maps a missing entry to `''` and is
the identity on every string value that can arise there). -/
def parseAssetDescription (assetDesc : String) : ParsedDescription :=
  let parts := splitPipe assetDesc.data
  { name := ⟨parts.getD 0 []⟩
    symbol := ⟨parts.getD 1 []⟩
    description := ⟨joinPipe (parts.drop 2)⟩ }

/-! ## `src/token-creator.js`: data model

Supplies are JS `BigInt`s built from decimal strings
(`BigInt(initialSupply.toString())` etc.), modelled as `Int`; the decimal
string stored in the record and the `BigInt` used in arithmetic encode the
same integer, so one `Int` field stands for both.  ISO timestamps
(`createdAt`, `deployedAt`, history `timestamp`) and the opaque built
transaction object are not modelled: no claim mentions their values.
`uuidv4()` is modelled as a fresh counter draw (`nextId`). -/

/-- Constant `MAX_ISSUE = 2^64 - 1` (ZIP 227), `token-creator.js:61`. -/
def MAX_ISSUE : Int := 18446744073709551615

/-- Constant `INCINERATOR_ADDRESS` (`token-creator.js:18-19`). -/
def INCINERATOR_ADDRESS : String :=
  "zt1incinerator0000000000000000000000000000000000000000000000000000000000"

/-- History entry `type` values used by `token-creator.js`. -/
inductive HistoryType where
  | creation
  | issuance
  | finalization
  | deployment
  | deployment_failed
  | burn
deriving Repr, DecidableEq

/-- One entry of a token's append-only `history` log (timestamp omitted). -/
structure HistoryEntry where
  type : HistoryType
  amount : Option Int := none
  recipient : Option String := none
  transactionId : Option String := none
  finalized : Option Bool := none
deriving Repr, DecidableEq

/-- A Token record as built by `createToken` (`token-creator.js:89-110`). -/
structure Token where
  id : Nat
  name : String
  symbol : String
  description : String
  initialSupply : Int
  totalSupply : Int
  issuer : String
  assetId : String
  assetDescHash : String
  assetDesc : String
  recipientAddress : String
  finalized : Bool
  network : String
  status : String
  transactionId : Option String
  burnedSupply : Int
  history : List HistoryEntry
deriving Repr, DecidableEq

/-- The persisted token collection plus the ambient issuer identity
(`IssuanceKeys.getIssuer()`, `src/keys.js`) and the uuid freshness counter. -/
structure TokenStore where
  issuer : String
  nextId : Nat
  tokens : List Token
deriving Repr, DecidableEq

/-- Error taxonomy of the spec (§7).  The source throws plain `Error`s with
distinguishing messages; each constructor tags the class the spec assigns to
the corresponding throw site, keeping the message. -/
inductive Err where
  | validation (msg : String)
  | notFound (msg : String)
  | conflict (msg : String)
  | tool (msg : String)
deriving Repr, DecidableEq

/-- Function `addHistoryEntry` (`token-creator.js:453-462`): push one entry (the
stored record always carries a history array here, so the `Array.isArray`
repair branch is never taken). -/
def addHistoryEntry (t : Token) (e : HistoryEntry) : Token :=
  { t with history := t.history ++ [e] }

/-- The `findIndex`/mutate/`set` pattern used by `issueMore`, `finalizeToken`,
`updateTokenStatus` and `burnTokens`: locate the first token with the given
`assetId`, apply the (possibly failing) per-token update, and write the
result back at the same position.  `Token not found` when no token matches. -/
def modifyFirst (tokens : List Token) (assetId : String)
    (f : Token → Except Err Token) : Except Err (List Token × Token) :=
  match tokens with
  | [] => .error (.notFound "Token not found")
  | t :: ts =>
    if t.assetId = assetId then
      match f t with
      | .error e => .error e
      | .ok t2 => .ok (t2 :: ts, t2)
    else
      match modifyFirst ts assetId f with
      | .error e => .error e
      | .ok (ts2, t2) => .ok (t :: ts2, t2)

/-- Parameters of `createToken` (`tokenData`). -/
structure CreateParams where
  name : String
  symbol : String
  description : String
  initialSupply : Int
  recipientAddress : String
  finalize : Bool := false
deriving Repr, DecidableEq

/-- Modelled from the spec: `IssuanceTransaction.buildIssuanceTransaction`
(`src/issuance.js` is not part of the provided sources; only its callers
are).  Per §4.3 it is the collaborator's pure, unbroadcast build step with no
validation of its own; the built payload is recorded but never read by any
operation, so it is modelled as an opaque marker value. -/
def buildIssuanceTransaction (_assetData : String × String × String)
    (_recipients : List (String × Int)) (_finalize : Bool) : Unit :=
  ()

/-- Function `createToken` (`token-creator.js:40-128`).  Validation precedes every
mutation; on success the new record is appended to the collection.
`!initialSupply` cannot fire for a decimal-string supply (non-empty strings
are truthy), so the missing-field check covers `name`, `symbol` and
`recipientAddress`. -/
def createToken (s : TokenStore) (p : CreateParams) :
    TokenStore × Except Err Token :=
  if p.name = "" ∨ p.symbol = "" ∨ p.recipientAddress = "" then
    (s, .error (.validation
      "Missing required fields: name, symbol, initialSupply, recipientAddress"))
  else if p.symbol.length < 2 ∨ p.symbol.length > 10 then
    (s, .error (.validation "Symbol must be between 2 and 10 characters"))
  else if p.initialSupply > MAX_ISSUE then
    (s, .error (.validation "Supply exceeds maximum: 18446744073709551615"))
  else
    let issuer := s.issuer
    let assetDesc := createAssetDescription p.name p.symbol p.description
    let r := computeAssetId issuer assetDesc
    let _tx := buildIssuanceTransaction (p.name, p.symbol, p.description)
      [(p.recipientAddress, p.initialSupply)] p.finalize
    let token : Token :=
      { id := s.nextId
        name := p.name.trim
        symbol := p.symbol.toUpper.trim
        description := p.description
        initialSupply := p.initialSupply
        totalSupply := p.initialSupply
        issuer := issuer
        assetId := r.assetId
        assetDescHash := r.assetDescHash
        assetDesc := assetDesc
        recipientAddress := p.recipientAddress
        finalized := p.finalize
        network := "zcash-testnet"
        status := "pending"
        transactionId := none
        burnedSupply := 0
        history := [] }
    let token := addHistoryEntry token
      { type := .creation
        amount := some p.initialSupply
        recipient := some p.recipientAddress
        finalized := some p.finalize }
    ({ s with nextId := s.nextId + 1, tokens := s.tokens ++ [token] }, .ok token)

/-- Per-token body of `issueMore` (`token-creator.js:141-177`). -/
def issueMoreToken (amount : Int) (recipientAddress : String) (t : Token) :
    Except Err Token :=
  if t.finalized then
    .error (.conflict "Token is finalized. No more tokens can be issued.")
  else
    let newSupply := t.totalSupply + amount
    if newSupply > MAX_ISSUE then
      .error (.validation "Total supply would exceed maximum")
    else
      let _tx := buildIssuanceTransaction (t.name, t.symbol, t.description)
        [(recipientAddress, amount)] false
      .ok (addHistoryEntry
        { t with totalSupply := newSupply, status := "pending" }
        { type := .issuance, amount := some amount,
          recipient := some recipientAddress })

/-- Function `issueMore` (`token-creator.js:133-187`).  The JS function returns
`{token, transaction, amountIssued}`; the embedding returns the token (the
other fields are derived values never stored). -/
def issueMore (s : TokenStore) (assetId : String) (amount : Int)
    (recipientAddress : String) : TokenStore × Except Err Token :=
  match modifyFirst s.tokens assetId (issueMoreToken amount recipientAddress) with
  | .error e => (s, .error e)
  | .ok (ts, t) => ({ s with tokens := ts }, .ok t)

/-- Per-token body of `finalizeToken` (`token-creator.js:202-223`). -/
def finalizeTokenOne (t : Token) : Except Err Token :=
  if t.finalized then
    .error (.conflict "Token is already finalized")
  else
    let _tx := buildIssuanceTransaction (t.name, t.symbol, t.description)
      [(t.recipientAddress, 0)] true
    .ok (addHistoryEntry
      { t with finalized := true, status := "pending_finalization" }
      { type := .finalization })

/-- Function `finalizeToken` (`token-creator.js:192-232`). -/
def finalizeToken (s : TokenStore) (assetId : String) :
    TokenStore × Except Err Token :=
  match modifyFirst s.tokens assetId finalizeTokenOne with
  | .error e => (s, .error e)
  | .ok (ts, t) => ({ s with tokens := ts }, .ok t)

/-- Per-token body of `burnTokens` (`token-creator.js:480-499`). -/
def burnTokensOne (amount : Int) (burnAddress : String) (t : Token) :
    Except Err Token :=
  if amount > t.totalSupply then
    .error (.conflict "Burn amount exceeds total supply")
  else
    let t := addHistoryEntry t
      { type := .burn, amount := some amount, recipient := some burnAddress }
    .ok { t with
      totalSupply := t.totalSupply - amount
      burnedSupply := t.burnedSupply + amount
      status := "pending_burn" }

/-- Function `burnTokens` (`token-creator.js:467-509`).  The `amount ≤ 0` validation
runs before the store is consulted. -/
def burnTokens (s : TokenStore) (assetId : String) (amount : Int)
    (burnAddress : String := INCINERATOR_ADDRESS) :
    TokenStore × Except Err Token :=
  if amount ≤ 0 then
    (s, .error (.validation "Burn amount must be greater than zero"))
  else
    match modifyFirst s.tokens assetId (burnTokensOne amount burnAddress) with
    | .error e => (s, .error e)
    | .ok (ts, t) => ({ s with tokens := ts }, .ok t)

/-! ## `deployToken` and the TransactionIssuer boundary -/

/-- Function `getTokenByAssetId` (`token-creator.js:249-252`) over an in-memory
collection: `tokens.find(t => t.assetId === assetId)`. -/
def getTokenByAssetId (s : TokenStore) (assetId : String) : Option Token :=
  s.tokens.find? (fun t => t.assetId = assetId)

/-- Per-token body of `updateTokenStatus` (`token-creator.js:282-298`).
`if (transactionId)` is JS truthiness: `null` and `""` are skipped. -/
def updateTokenStatusOne (status : String) (transactionId : Option String)
    (t : Token) : Token :=
  let t := { t with status := status }
  let t :=
    match transactionId with
    | some txid => if txid = "" then t else { t with transactionId := some txid }
    | none => t
  if status = "deployed" then
    addHistoryEntry t { type := .deployment, transactionId := transactionId }
  else if status = "failed" then
    addHistoryEntry t { type := .deployment_failed }
  else t

/-- Function `updateTokenStatus` (`token-creator.js:273-305`). -/
def updateTokenStatus (s : TokenStore) (assetId : String) (status : String)
    (transactionId : Option String := none) : TokenStore × Except Err Token :=
  match modifyFirst s.tokens assetId
      (fun t => .ok (updateTokenStatusOne status transactionId t)) with
  | .error e => (s, .error e)
  | .ok (ts, t) => ({ s with tokens := ts }, .ok t)

/-- Number of bits of `n` (fuel-based so the kernel can evaluate it). -/
def natBitsAux : Nat → Nat → Nat
  | 0, _ => 0
  | fuel + 1, n => if n = 0 then 0 else natBitsAux fuel (n / 2) + 1

/-- Number of bits of `n`: `0` for `0`, `k+1` when `2^k ≤ n < 2^(k+1)`. -/
def natBits (n : Nat) : Nat :=
  natBitsAux n n

/-- JS `Number(s)` on the decimal string of an unsigned integer: the value is
rounded to the nearest IEEE-754 binary64 (53-bit significand), ties to even.
Values up to `2^53` are exact. -/
def roundToFloat64 (n : Nat) : Nat :=
  if n ≤ 2 ^ 53 then n
  else
    let e := natBits n - 53
    let q := n / 2 ^ e
    let r := n % 2 ^ e
    if 2 * r < 2 ^ e then q * 2 ^ e
    else if 2 * r > 2 ^ e then (q + 1) * 2 ^ e
    else (if q % 2 = 0 then q else q + 1) * 2 ^ e

/-- JS `Number(token.totalSupply)` (`token-creator.js:327`) for an integer-valued
decimal string, possibly negative. -/
def jsNumber (n : Int) : Int :=
  if n < 0 then -(roundToFloat64 n.natAbs : Int) else (roundToFloat64 n.toNat : Int)

/-- The request payload handed to the Rust `zcash_tx_tool issue` subprocess
(`token-creator.js:333-341`). -/
structure IssuePayload where
  asset_desc_hash : String
  asset_name : String
  recipient : String
  amount : Int
  first_issuance : Bool
  finalize : Bool
  mine : Bool
deriving Repr, DecidableEq

/-- Payload construction inside `deployToken` (`token-creator.js:325-341`):
the stored `assetDescHash` hex string (recomputed when absent, i.e. falsy) is
decoded and re-encoded, the amount is `Number(token.totalSupply)`,
`first_issuance` is the absence of a prior `deployment` history entry, and
`finalize` is the literal `false`. -/
def mkIssuePayload (t : Token) (mine : Bool) : IssuePayload :=
  let assetDescHashHex :=
    if t.assetDescHash = "" then bytesToHexStr (computeAssetDescHash t.assetDesc)
    else t.assetDescHash
  { asset_desc_hash := bytesToHexStr (hexToBytes assetDescHashHex.data)
    asset_name := t.name
    recipient := t.recipientAddress
    amount := jsNumber t.totalSupply
    first_issuance := !(t.history.any (fun e => e.type = .deployment))
    finalize := false
    mine := mine }

/-- Parsed JSON response of the `issue` subprocess; `tx_id` may be absent. -/
structure IssueResponse where
  tx_id : Option String
deriving Repr, DecidableEq

/-- Result of awaiting `runIssue` (`scripts/run-issue.js`): either a parsed
response or a rejection carrying an `IssueCommandError` `code` and message.
The subprocess outcome is an input of the embedding. -/
inductive RunIssueOutcome where
  | ok (resp : IssueResponse)
  | err (code : String) (msg : String)
deriving Repr, DecidableEq

/-- Contiguous-substring test (JS `String.prototype.includes`). -/
def hasSubstr : List Char → List Char → Bool
  | _, [] => true
  | [], _ :: _ => false
  | c :: rest, p :: ps => List.isPrefixOf (p :: ps) (c :: rest) || hasSubstr rest (p :: ps)

/-- The `catch` block of `deployToken` (`token-creator.js:364-399`): map a
rejected `runIssue` to the rethrown, user-facing error. -/
def classifyDeployError (code msg : String) : Err :=
  if code = "ISSUE_COMMAND_VALIDATION" then
    .tool ("Issuance validation failed: " ++ msg)
  else if code = "ISSUE_COMMAND_BROADCAST" &&
      hasSubstr msg.data "transaction did not pass consensus validation".data then
    .tool ("The node rejected the issuance transaction (consensus validation failed). " ++
      "If you are using a local Zebra node, try rerunning with mining enabled " ++
      "(deploy-token.js --mine) or verify the node allows shielded asset issuance.")
  else if code = "ISSUE_COMMAND_SPAWN" then
    .tool "Failed to execute `cargo`. Ensure Rust is installed and `cargo` is available on the PATH."
  else
    .tool ("Issue command failed: " ++ msg)

/-- Return shape of a successful `deployToken`. -/
structure DeployResult where
  success : Bool
  transactionId : String
  assetId : String
deriving Repr, DecidableEq

/-- Function `deployToken` (`token-creator.js:310-401`).  The store is returned in
every case because the `catch` branch performs a compensating
`updateTokenStatus(assetId, 'failed')` before re-raising.  A present but
falsy (`""`) `tx_id` takes the same failure path as an absent one
(`!result.tx_id`).  The post-success re-persist (`token-creator.js:350-355`)
rewrites the already-updated record unchanged and is not repeated here.
`Number(totalSupply)` cannot be `NaN` for an integer-valued supply, so the
NaN guard is unreachable in the model. -/
def deployToken (s : TokenStore) (assetId : String) (mine : Bool)
    (outcome : RunIssueOutcome) : TokenStore × Except Err DeployResult :=
  match getTokenByAssetId s assetId with
  | none => (s, .error (.notFound "Token not found"))
  | some token =>
    if token.status = "deployed" then
      (s, .error (.conflict "Token already deployed"))
    else
      let s1 := (updateTokenStatus s assetId "deploying").1
      let _payload := mkIssuePayload token mine
      match outcome with
      | .err code msg =>
        ((updateTokenStatus s1 assetId "failed").1,
         .error (classifyDeployError code msg))
      | .ok resp =>
        match resp.tx_id with
        | some txid =>
          if txid = "" then
            ((updateTokenStatus s1 assetId "failed").1,
             .error (.tool "Issue command did not return a transaction id; aborting deployment."))
          else
            ((updateTokenStatus s1 assetId "deployed" (some txid)).1,
             .ok { success := true, transactionId := txid, assetId := assetId })
        | none =>
          ((updateTokenStatus s1 assetId "failed").1,
           .error (.tool "Issue command did not return a transaction id; aborting deployment."))

/-! ## Query path over the durable store (`getAllTokens` and lookups)

`getAllTokens` wraps `fs.readFileSync` + `JSON.parse` in a `try/catch` and
returns whatever the parse produced — which need not be an array of token
objects.  The model therefore distinguishes, for a readable and parseable
file, an array of entries (each a token-shaped object or a null-like value
on which property access throws) from any non-array JSON value (such as
`{}`), on which the `Array.prototype` methods used by the lookups are
missing. -/

/-- One JSON array entry of the persisted store: a token-shaped object, or a
null-like value (`null`/`undefined`) whose property access throws. -/
inductive StoreEntry where
  | obj (t : Token)
  | nullish
deriving Repr, DecidableEq

/-- Parsed JSON contents of `created-tokens.json`: an array of entries, or
any non-array value (`{}`, a string, a number, a boolean, top-level
`null`). -/
inductive StoreContents where
  | arr (items : List StoreEntry)
  | nonArray
deriving Repr, DecidableEq

/-- Observable states of the durable `created-tokens.json` store. -/
inductive StoreFile where
  | absent
  | unreadable
  | parsed (v : StoreContents)
deriving Repr, DecidableEq

/-- Node `fs.readFileSync` + `JSON.parse` (`token-creator.js:239-240`): the
body of the `try`, failing on an absent or unreadable/unparseable file and
otherwise yielding the parsed value. -/
def readStoreFile : StoreFile → Except String StoreContents
  | .absent => .error "ENOENT: no such file or directory"
  | .unreadable => .error "SyntaxError: Unexpected token in JSON"
  | .parsed v => .ok v

/-- Function `getAllTokens` (`token-creator.js:237-244`): any read/parse
failure is caught and turned into `[]`; a successfully parsed value is
returned as-is, array or not. -/
def getAllTokensFile (f : StoreFile) : StoreContents :=
  match readStoreFile f with
  | .ok v => v
  | .error _ => .arr []

/-- JS `Array.prototype.find` with a callback reading token fields: stops at
the first match, and throws a `TypeError` when the callback dereferences a
null entry first. -/
def jsFindEntries (p : Token → Bool) : List StoreEntry → Except String (Option Token)
  | [] => .ok none
  | .nullish :: _ => .error "TypeError: Cannot read properties of null"
  | .obj t :: rest => if p t then .ok (some t) else jsFindEntries p rest

/-- JS `tokens.find(...)`: a `TypeError` when the receiver is not an array. -/
def jsFind (v : StoreContents) (p : Token → Bool) : Except String (Option Token) :=
  match v with
  | .nonArray => .error "TypeError: tokens.find is not a function"
  | .arr items => jsFindEntries p items

/-- JS `Array.prototype.filter` with a callback reading token fields: visits
every entry, throwing a `TypeError` at a null entry. -/
def jsFilterEntries (p : Token → Bool) : List StoreEntry → Except String (List Token)
  | [] => .ok []
  | .nullish :: _ => .error "TypeError: Cannot read properties of null"
  | .obj t :: rest =>
    match jsFilterEntries p rest with
    | .error e => .error e
    | .ok ts => .ok (if p t then t :: ts else ts)

/-- JS `tokens.filter(...)`: a `TypeError` when the receiver is not an array. -/
def jsFilter (v : StoreContents) (p : Token → Bool) : Except String (List Token) :=
  match v with
  | .nonArray => .error "TypeError: tokens.filter is not a function"
  | .arr items => jsFilterEntries p items

/-- Function `getTokenByAssetId` (`token-creator.js:249-252`) over the
durable store; an `.error` result models an uncaught `TypeError`. -/
def getTokenByAssetIdFile (f : StoreFile) (assetId : String) :
    Except String (Option Token) :=
  jsFind (getAllTokensFile f) (fun t => t.assetId = assetId)

/-- Function `getTokenById` (`token-creator.js:257-260`). -/
def getTokenByIdFile (f : StoreFile) (tokenId : Nat) :
    Except String (Option Token) :=
  jsFind (getAllTokensFile f) (fun t => t.id = tokenId)

/-- Function `getTokensByIssuer` (`token-creator.js:265-268`). -/
def getTokensByIssuerFile (f : StoreFile) (issuer : String) :
    Except String (List Token) :=
  jsFilter (getAllTokensFile f) (fun t => t.issuer = issuer)

/-! ## Operation sequences -/

/-- One external command against the ledger (§2 control flow). -/
inductive LedgerOp where
  | create (p : CreateParams)
  | issue (assetId : String) (amount : Int) (recipientAddress : String)
  | finalize (assetId : String)
  | burn (assetId : String) (amount : Int) (burnAddress : String)
  | deploy (assetId : String) (mine : Bool) (outcome : RunIssueOutcome)
deriving Repr, DecidableEq

/-- The store after one operation (a thrown error leaves the durable store
as it was, except for `deploy`'s compensating status write, which is part of
the returned store). -/
def applyOp (s : TokenStore) : LedgerOp → TokenStore
  | .create p => (createToken s p).1
  | .issue a amt r => (issueMore s a amt r).1
  | .finalize a => (finalizeToken s a).1
  | .burn a amt addr => (burnTokens s a amt addr).1
  | .deploy a m o => (deployToken s a m o).1

/-- The store after a sequence of operations. -/
def applyOps (s : TokenStore) (ops : List LedgerOp) : TokenStore :=
  ops.foldl applyOp s

/-! ## Spec predicates -/

/-- The sixteen lowercase hex digits, the alphabet of every identifier the
system itself produces (`Buffer.toString('hex')`). -/
def lowHexChars : List Char :=
  "0123456789abcdef".data

/-- Predicate: `s` is exactly `n` lowercase hex characters. -/
def IsLowerHex (n : Nat) (s : String) : Prop :=
  s.data.length = n ∧ ∀ c ∈ s.data, c ∈ lowHexChars

instance (n : Nat) (s : String) : Decidable (IsLowerHex n s) := by
  unfold IsLowerHex
  exact inferInstance

/-- Sum of the `issuance` amounts recorded in a history log (§3 invariant 2). -/
def sumIssued : List HistoryEntry → Int
  | [] => 0
  | e :: es => (if e.type = .issuance then e.amount.getD 0 else 0) + sumIssued es

/-- Sum of the `burn` amounts recorded in a history log (§3 invariant 2). -/
def sumBurned : List HistoryEntry → Int
  | [] => 0
  | e :: es => (if e.type = .burn then e.amount.getD 0 else 0) + sumBurned es

/-- Supply conservation for one token (§3 invariants 1-2): the running supply
is the initial supply plus recorded issuances minus recorded burns, and stays
within `[0, MAX_ISSUE]`. -/
def SupplyInv (t : Token) : Prop :=
  t.totalSupply = t.initialSupply + sumIssued t.history - sumBurned t.history ∧
  0 ≤ t.totalSupply ∧ t.totalSupply ≤ MAX_ISSUE

instance (t : Token) : Decidable (SupplyInv t) := by
  unfold SupplyInv
  exact inferInstance

/-- Supply conservation over the whole collection. -/
def StoreSupplyInv (s : TokenStore) : Prop :=
  ∀ t ∈ s.tokens, SupplyInv t

instance (s : TokenStore) : Decidable (StoreSupplyInv s) := by
  unfold StoreSupplyInv
  exact inferInstance

/-- Amount arguments of an operation are nonnegative (`createToken` and
`issueMore` accept any `BigInt`; the conservation claim is restated under
this restriction, see `C1_amended`). -/
def OpNonneg : LedgerOp → Prop
  | .create p => 0 ≤ p.initialSupply
  | .issue _ amount _ => 0 ≤ amount
  | _ => True

instance (op : LedgerOp) : Decidable (OpNonneg op) := by
  unfold OpNonneg
  cases op <;> exact inferInstance

/-- The first token bearing `assetId` — the one every `findIndex`/`find`
lookup resolves to — exists and is finalized. -/
def FirstFinalized (assetId : String) (l : List Token) : Prop :=
  ∃ t, l.find? (fun u => u.assetId = assetId) = some t ∧ t.finalized = true

/-- Concrete fixture: a freshly created pending token, used to instantiate
witnesses on concrete inputs.  The `assetId` is an arbitrary key; nothing in
the ledger operations requires it to be well-formed hex. -/
def sampleToken : Token :=
  { id := 0, name := "N", symbol := "NN", description := "",
    initialSupply := 10, totalSupply := 10, issuer := "i", assetId := "x",
    assetDescHash := "ab", assetDesc := "N|NN|", recipientAddress := "r",
    finalized := false, network := "zcash-testnet", status := "pending",
    transactionId := none, burnedSupply := 0, history := [] }

/-- Concrete fixture: a store holding `sampleToken`. -/
def sampleStore : TokenStore :=
  { issuer := "i", nextId := 1, tokens := [sampleToken] }

/-- Concrete fixture: `sampleToken` after a successful `finalizeToken`. -/
def sampleFinalizedToken : Token :=
  { sampleToken with
      finalized := true
      status := "pending_finalization"
      history := [{ type := .finalization }] }

/-- Decidable equality of embedded operation results, for concrete
witnesses. -/
instance exceptDecEq {ε α : Type} [DecidableEq ε] [DecidableEq α] :
    DecidableEq (Except ε α)
  | .error e1, .error e2 =>
    if h : e1 = e2 then isTrue (by rw [h]) else
      isFalse (fun hc => by cases hc; exact h rfl)
  | .ok a1, .ok a2 =>
    if h : a1 = a2 then isTrue (by rw [h]) else
      isFalse (fun hc => by cases hc; exact h rfl)
  | .error _, .ok _ => isFalse (fun hc => by cases hc)
  | .ok _, .error _ => isFalse (fun hc => by cases hc)

/-- Concrete fixture: `sampleStore` after a successful `finalizeToken`. -/
def sampleFinalizedStore : TokenStore :=
  { issuer := "i", nextId := 1, tokens := [sampleFinalizedToken] }

/-! # Theorems

First general lemmas about the byte/hex/hash layer, the list machinery and
the operation layer; then one theorem (plus witness/counterexample) per
claim. -/

theorem toBytesBE_length (k n : Nat) : (toBytesBE k n).length = k := by
  induction k generalizing n with
  | zero => rfl
  | succ k ih => simp [toBytesBE, ih]

theorem toBytesBE_lt (k n : Nat) : ∀ b ∈ toBytesBE k n, b < 256 := by
  induction k generalizing n with
  | zero => simp [toBytesBE]
  | succ k ih =>
    intro b hb
    simp only [toBytesBE, List.mem_cons] at hb
    rcases hb with h | h
    · subst h
      exact Nat.mod_lt _ (by norm_num)
    · exact ih n b h

theorem sha256_length (msg : List Nat) : (sha256 msg).length = 32 := by
  simp [sha256, toBytesBE_length]

theorem sha256_lt (msg : List Nat) : ∀ b ∈ sha256 msg, b < 256 := by
  intro b hb
  simp only [sha256, List.mem_append] at hb
  rcases hb with ((((((h | h) | h) | h) | h) | h) | h) | h <;>
    exact toBytesBE_lt _ _ _ h

theorem hexDigit_facts : ∀ v < 16, hexDigitChar v ∈ lowHexChars ∧
    hexCharVal? (hexDigitChar v) = some v := by decide

theorem lowHex_facts : ∀ c ∈ lowHexChars,
    (hexCharVal? c).isSome = true ∧ (hexCharVal? c).getD 0 < 16 ∧
    hexDigitChar ((hexCharVal? c).getD 0) = c := by decide

theorem bytesToHex_append (a b : List Nat) :
    bytesToHex (a ++ b) = bytesToHex a ++ bytesToHex b := by
  simp [bytesToHex]

theorem bytesToHex_length (bs : List Nat) :
    (bytesToHex bs).length = 2 * bs.length := by
  induction bs with
  | nil => rfl
  | cons b bs ih =>
    simp only [bytesToHex, List.flatMap_cons] at *
    simp [byteToHex, List.length_append, ih]
    omega

theorem bytesToHex_lowHex (bs : List Nat) (h : ∀ b ∈ bs, b < 256) :
    ∀ c ∈ bytesToHex bs, c ∈ lowHexChars := by
  intro c hc
  simp only [bytesToHex, List.mem_flatMap] at hc
  obtain ⟨b, hb, hcb⟩ := hc
  have hb256 := h b hb
  have h1 : b / 16 < 16 := by omega
  have h2 : b % 16 < 16 := by omega
  simp only [byteToHex, List.mem_cons, List.not_mem_nil, or_false] at hcb
  rcases hcb with rfl | rfl
  · exact (hexDigit_facts _ h1).1
  · exact (hexDigit_facts _ h2).1

theorem hexToBytes_bytesToHex : ∀ bs : List Nat, (∀ b ∈ bs, b < 256) →
    hexToBytes (bytesToHex bs) = bs
  | [], _ => rfl
  | b :: bs, h => by
    have hb : b < 256 := h b (by simp)
    have h1 : b / 16 < 16 := by omega
    have h2 : b % 16 < 16 := by omega
    have e1 := (hexDigit_facts _ h1).2
    have e2 := (hexDigit_facts _ h2).2
    have ih := hexToBytes_bytesToHex bs (fun x hx => h x (by simp [hx]))
    simp only [bytesToHex, List.flatMap_cons, byteToHex, List.cons_append,
      List.nil_append] at *
    simp only [hexToBytes, e1, e2, ih]
    congr 1
    omega

theorem bytesToHex_hexToBytes : ∀ l : List Char, (∀ c ∈ l, c ∈ lowHexChars) →
    l.length % 2 = 0 → bytesToHex (hexToBytes l) = l
  | [], _, _ => rfl
  | [c], _, hlen => by simp at hlen
  | c1 :: c2 :: rest, hl, hlen => by
    obtain ⟨hs1, hlt1, hd1⟩ := lowHex_facts c1 (hl c1 (by simp))
    obtain ⟨hs2, hlt2, hd2⟩ := lowHex_facts c2 (hl c2 (by simp))
    cases hv1 : hexCharVal? c1 with
    | none => rw [hv1] at hs1; cases hs1
    | some v1 =>
      cases hv2 : hexCharVal? c2 with
      | none => rw [hv2] at hs2; cases hs2
      | some v2 =>
        rw [hv1] at hlt1 hd1
        rw [hv2] at hlt2 hd2
        simp only [Option.getD_some] at hlt1 hd1 hlt2 hd2
        have ih := bytesToHex_hexToBytes rest
          (fun c hc => hl c (by simp [hc])) (by simp at hlen ⊢; omega)
        simp only [hexToBytes, hv1, hv2]
        simp only [bytesToHex, List.flatMap_cons, byteToHex] at ih ⊢
        have hq : (16 * v1 + v2) / 16 = v1 := by omega
        have hr : (16 * v1 + v2) % 16 = v2 := by omega
        simp [hq, hr, hd1, hd2, ih]

theorem computeAssetId_data (i d : String) :
    (computeAssetId i d).assetId.data =
      '0' :: '0' ::
        (bytesToHex (hexToBytes i.data) ++ bytesToHex (computeAssetDescHash d)) := by
  show bytesToHex ([0] ++ hexToBytes i.data ++ computeAssetDescHash d) = _
  rw [bytesToHex_append, bytesToHex_append, List.append_assoc]
  rfl

/-- C2 (amended): for issuers of 64 *lowercase* hex characters,
`computeAssetId` is deterministic, returns exactly 130 lowercase hex
characters starting `"00"` that hex-encode `0x00 ++ issuerBytes ++ descHash`;
distinct issuers give distinct assetIds, and distinct descriptions give
distinct assetIds whenever their description hashes differ (collision
resistance of the placeholder hash is the spec's own assumption, §4.2). -/
theorem C2_amended (i1 i2 d d' : String)
    (h1 : IsLowerHex 64 i1) (h2 : IsLowerHex 64 i2) :
    computeAssetId i1 d = computeAssetId i1 d ∧
    (computeAssetId i1 d).assetId.length = 130 ∧
    (computeAssetId i1 d).assetId.data.take 2 = ['0', '0'] ∧
    (∀ c ∈ (computeAssetId i1 d).assetId.data, c ∈ lowHexChars) ∧
    (computeAssetId i1 d).assetId =
      bytesToHexStr (0 :: (hexToBytes i1.data ++ computeAssetDescHash d)) ∧
    (i1 ≠ i2 → (computeAssetId i1 d).assetId ≠ (computeAssetId i2 d).assetId) ∧
    (computeAssetDescHash d ≠ computeAssetDescHash d' →
      (computeAssetId i1 d).assetId ≠ (computeAssetId i1 d').assetId) := by
  obtain ⟨hlen1, hhex1⟩ := h1
  obtain ⟨hlen2, hhex2⟩ := h2
  have hrt1 : bytesToHex (hexToBytes i1.data) = i1.data :=
    bytesToHex_hexToBytes i1.data hhex1 (by omega)
  have hrt2 : bytesToHex (hexToBytes i2.data) = i2.data :=
    bytesToHex_hexToBytes i2.data hhex2 (by omega)
  refine ⟨rfl, ?_, ?_, ?_, rfl, ?_, ?_⟩
  · show (computeAssetId i1 d).assetId.data.length = 130
    rw [computeAssetId_data, hrt1]
    simp [bytesToHex_length, sha256_length, computeAssetDescHash, blake2b256, hlen1]
  · rw [computeAssetId_data]
    rfl
  · rw [computeAssetId_data, hrt1]
    intro c hc
    simp only [List.mem_cons] at hc
    rcases hc with rfl | rfl | hc
    · decide
    · decide
    rcases List.mem_append.mp hc with hc | hc
    · exact hhex1 c hc
    · exact bytesToHex_lowHex _ (sha256_lt _) c hc
  · intro hne heq
    apply hne
    have hdata := congrArg String.data heq
    rw [computeAssetId_data, computeAssetId_data, hrt1, hrt2] at hdata
    simp only [List.cons.injEq, true_and] at hdata
    have := List.append_cancel_right hdata
    cases i1
    cases i2
    exact congrArg String.mk this
  · intro hne heq
    apply hne
    have hdata := congrArg String.data heq
    rw [computeAssetId_data, computeAssetId_data] at hdata
    simp only [List.cons.injEq, true_and] at hdata
    have := List.append_cancel_left hdata
    have e1 := hexToBytes_bytesToHex (computeAssetDescHash d) (sha256_lt _)
    have e2 := hexToBytes_bytesToHex (computeAssetDescHash d') (sha256_lt _)
    rw [← e1, ← e2, this]

set_option maxRecDepth 100000 in
/-- C2 counterexample: two *distinct* strings of 64 hex characters (the same
identifier in upper and lower case) are decoded to the same bytes by
`Buffer.from(·, 'hex')` and therefore yield the *same* assetId, refuting
"changing the issuer changes the assetId" as stated for arbitrary hex
issuers. -/
theorem C2_counterexample :
    ("AAAAAAAAAAAAAAAAAAAAAAAAAAAAAAAAAAAAAAAAAAAAAAAAAAAAAAAAAAAAAAAA" : String) ≠
      "aaaaaaaaaaaaaaaaaaaaaaaaaaaaaaaaaaaaaaaaaaaaaaaaaaaaaaaaaaaaaaaa" ∧
    ("AAAAAAAAAAAAAAAAAAAAAAAAAAAAAAAAAAAAAAAAAAAAAAAAAAAAAAAAAAAAAAAA" : String).data.length = 64 ∧
    (∀ c ∈ ("AAAAAAAAAAAAAAAAAAAAAAAAAAAAAAAAAAAAAAAAAAAAAAAAAAAAAAAAAAAAAAAA" : String).data,
      (hexCharVal? c).isSome = true) ∧
    (computeAssetId "AAAAAAAAAAAAAAAAAAAAAAAAAAAAAAAAAAAAAAAAAAAAAAAAAAAAAAAAAAAAAAAA" "d").assetId =
      (computeAssetId "aaaaaaaaaaaaaaaaaaaaaaaaaaaaaaaaaaaaaaaaaaaaaaaaaaaaaaaaaaaaaaaa" "d").assetId := by
  decide

set_option maxRecDepth 100000 in
/-- Witness for `C2_amended` at concrete inputs. -/
theorem C2_amended_witness :
    (computeAssetId "aaaaaaaaaaaaaaaaaaaaaaaaaaaaaaaaaaaaaaaaaaaaaaaaaaaaaaaaaaaaaaaa" "x").assetId.length = 130 ∧
    (computeAssetId "aaaaaaaaaaaaaaaaaaaaaaaaaaaaaaaaaaaaaaaaaaaaaaaaaaaaaaaaaaaaaaaa" "x").assetId.data.take 2 = ['0', '0'] ∧
    (computeAssetId "aaaaaaaaaaaaaaaaaaaaaaaaaaaaaaaaaaaaaaaaaaaaaaaaaaaaaaaaaaaaaaaa" "x").assetId ≠
      (computeAssetId "baaaaaaaaaaaaaaaaaaaaaaaaaaaaaaaaaaaaaaaaaaaaaaaaaaaaaaaaaaaaaaa" "x").assetId ∧
    (computeAssetId "aaaaaaaaaaaaaaaaaaaaaaaaaaaaaaaaaaaaaaaaaaaaaaaaaaaaaaaaaaaaaaaa" "x").assetId ≠
      (computeAssetId "aaaaaaaaaaaaaaaaaaaaaaaaaaaaaaaaaaaaaaaaaaaaaaaaaaaaaaaaaaaaaaaa" "y").assetId := by
  obtain ⟨-, hlen, htake, -, -, hinj, hdesc⟩ :=
    C2_amended "aaaaaaaaaaaaaaaaaaaaaaaaaaaaaaaaaaaaaaaaaaaaaaaaaaaaaaaaaaaaaaaa"
      "baaaaaaaaaaaaaaaaaaaaaaaaaaaaaaaaaaaaaaaaaaaaaaaaaaaaaaaaaaaaaaa"
      "x" "y" (by decide) (by decide)
  exact ⟨hlen, htake, hinj (by decide), hdesc (by decide)⟩

theorem splitPipe_ne_nil : ∀ l : List Char, splitPipe l ≠ []
  | [] => by simp [splitPipe]
  | c :: rest => by
    by_cases hc : c = '|' <;> cases hs : splitPipe rest <;>
      simp [splitPipe, hc, hs]

theorem splitPipe_append_pipe : ∀ a r : List Char, (∀ c ∈ a, c ≠ '|') →
    splitPipe (a ++ '|' :: r) = a :: splitPipe r
  | [], r, _ => by simp [splitPipe]
  | c :: a, r, h => by
    have hc : c ≠ '|' := h c (by simp)
    have ih := splitPipe_append_pipe a r (fun x hx => h x (by simp [hx]))
    simp [splitPipe, hc, ih]

theorem joinPipe_cons_cons (c : Char) (p : List Char) (ps : List (List Char)) :
    joinPipe ((c :: p) :: ps) = c :: joinPipe (p :: ps) := by
  cases ps <;> simp [joinPipe]

theorem joinPipe_splitPipe : ∀ l : List Char, joinPipe (splitPipe l) = l
  | [] => rfl
  | c :: rest => by
    have ih := joinPipe_splitPipe rest
    cases hs : splitPipe rest with
    | nil => exact absurd hs (splitPipe_ne_nil rest)
    | cons p ps =>
      rw [hs] at ih
      by_cases hc : c = '|'
      · subst hc
        simp [splitPipe, hs, joinPipe, ih]
      · simp only [splitPipe, if_neg hc, hs, joinPipe_cons_cons, ih]

theorem createAssetDescription_data (n s d : String) :
    (createAssetDescription n s d).data =
      n.data ++ '|' :: (s.data ++ '|' :: d.data) := by
  simp [createAssetDescription, String.data_append]

/-- C8: parsing the serialized description returns the three components
verbatim whenever neither the name nor the symbol contains the `'|'`
delimiter (the description may). -/
theorem C8_roundtrip (n s d : String)
    (hn : ∀ c ∈ n.data, c ≠ '|') (hs : ∀ c ∈ s.data, c ≠ '|') :
    parseAssetDescription (createAssetDescription n s d) =
      { name := n, symbol := s, description := d } := by
  unfold parseAssetDescription
  rw [createAssetDescription_data, splitPipe_append_pipe _ _ hn,
    splitPipe_append_pipe _ _ hs]
  show ({ name := ⟨n.data⟩, symbol := ⟨s.data⟩,
          description := ⟨joinPipe (splitPipe d.data)⟩ } : ParsedDescription) = _
  rw [joinPipe_splitPipe]

/-- Witness for `C8_roundtrip`: the description may itself contain the
delimiter. -/
theorem C8_roundtrip_witness :
    parseAssetDescription (createAssetDescription "Pepe" "PEPE" "a|b|c") =
      { name := "Pepe", symbol := "PEPE", description := "a|b|c" } :=
  C8_roundtrip "Pepe" "PEPE" "a|b|c" (by decide) (by decide)

theorem modifyFirst_of_find_none (l : List Token) (a : String)
    (f : Token → Except Err Token)
    (h : l.find? (fun u => u.assetId = a) = none) :
    modifyFirst l a f = .error (.notFound "Token not found") := by
  induction l with
  | nil => rfl
  | cons t ts ih =>
    by_cases ht : t.assetId = a
    · simp [List.find?_cons_of_pos, ht] at h
    · rw [List.find?_cons_of_neg _ (by simp [ht])] at h
      simp [modifyFirst, ht, ih h]

theorem modifyFirst_of_find_error (l : List Token) (a : String)
    (f : Token → Except Err Token) (t : Token) (e : Err)
    (hfind : l.find? (fun u => u.assetId = a) = some t)
    (herr : f t = .error e) :
    modifyFirst l a f = .error e := by
  induction l with
  | nil => simp [List.find?_nil] at hfind
  | cons u ts ih =>
    by_cases hu : u.assetId = a
    · rw [List.find?_cons_of_pos _ (by simp [hu])] at hfind
      cases hfind
      simp [modifyFirst, hu, herr]
    · rw [List.find?_cons_of_neg _ (by simp [hu])] at hfind
      simp [modifyFirst, hu, ih hfind]

theorem modifyFirst_of_find_ok (l : List Token) (a : String)
    (f : Token → Except Err Token) (t t2 : Token)
    (hfind : l.find? (fun u => u.assetId = a) = some t)
    (hok : f t = .ok t2) :
    ∃ l2, modifyFirst l a f = .ok (l2, t2) := by
  induction l with
  | nil => simp [List.find?_nil] at hfind
  | cons u ts ih =>
    by_cases hu : u.assetId = a
    · rw [List.find?_cons_of_pos _ (by simp [hu])] at hfind
      cases hfind
      exact ⟨t2 :: ts, by simp [modifyFirst, hu, hok]⟩
    · rw [List.find?_cons_of_neg _ (by simp [hu])] at hfind
      obtain ⟨l2, hl2⟩ := ih hfind
      exact ⟨u :: l2, by simp [modifyFirst, hu, hl2]⟩

theorem modifyFirst_exists (l : List Token) (a : String)
    (f : Token → Except Err Token) (l2 : List Token) (t2 : Token)
    (hok : modifyFirst l a f = .ok (l2, t2)) :
    ∃ t, l.find? (fun u => u.assetId = a) = some t ∧ f t = .ok t2 := by
  induction l generalizing l2 with
  | nil => simp [modifyFirst] at hok
  | cons u ts ih =>
    by_cases hu : u.assetId = a
    · refine ⟨u, by rw [List.find?_cons_of_pos _ (by simp [hu])], ?_⟩
      simp only [modifyFirst, if_pos hu] at hok
      cases hfu : f u with
      | error e => rw [hfu] at hok; cases hok
      | ok v => rw [hfu] at hok; cases hok; rfl
    · simp only [modifyFirst, if_neg hu] at hok
      cases hrec : modifyFirst ts a f with
      | error e => rw [hrec] at hok; cases hok
      | ok p =>
        rw [hrec] at hok
        cases hok
        obtain ⟨t, hfind, hft⟩ := ih p.1 (by rw [hrec])
        exact ⟨t, by rw [List.find?_cons_of_neg _ (by simp [hu]), hfind], hft⟩

theorem modifyFirst_find_after (l : List Token) (a : String)
    (f : Token → Except Err Token) (l2 : List Token) (t2 : Token)
    (hid : ∀ t u, f t = .ok u → u.assetId = t.assetId)
    (hok : modifyFirst l a f = .ok (l2, t2)) :
    l2.find? (fun u => u.assetId = a) = some t2 := by
  induction l generalizing l2 with
  | nil => simp [modifyFirst] at hok
  | cons u ts ih =>
    by_cases hu : u.assetId = a
    · simp only [modifyFirst, if_pos hu] at hok
      cases hfu : f u with
      | error e => rw [hfu] at hok; cases hok
      | ok v =>
        rw [hfu] at hok
        cases hok
        have : t2.assetId = a := by rw [hid u t2 hfu, hu]
        rw [List.find?_cons_of_pos _ (by simp [this])]
    · simp only [modifyFirst, if_neg hu] at hok
      cases hrec : modifyFirst ts a f with
      | error e => rw [hrec] at hok; cases hok
      | ok p =>
        rw [hrec] at hok
        cases hok
        rw [List.find?_cons_of_neg _ (by simp [hu])]
        exact ih p.1 (by rw [hrec])

theorem modifyFirst_forall (l : List Token) (a : String)
    (f : Token → Except Err Token) (l2 : List Token) (t2 : Token)
    (P : Token → Prop)
    (hP : ∀ t u, P t → f t = .ok u → P u)
    (hl : ∀ t ∈ l, P t)
    (hok : modifyFirst l a f = .ok (l2, t2)) :
    ∀ u ∈ l2, P u := by
  induction l generalizing l2 with
  | nil => simp [modifyFirst] at hok
  | cons u ts ih =>
    by_cases hu : u.assetId = a
    · simp only [modifyFirst, if_pos hu] at hok
      cases hfu : f u with
      | error e => rw [hfu] at hok; cases hok
      | ok v =>
        rw [hfu] at hok
        cases hok
        intro x hx
        rcases List.mem_cons.mp hx with rfl | hx
        · exact hP u x (hl u (by simp)) hfu
        · exact hl x (by simp [hx])
    · simp only [modifyFirst, if_neg hu] at hok
      cases hrec : modifyFirst ts a f with
      | error e => rw [hrec] at hok; cases hok
      | ok p =>
        rw [hrec] at hok
        cases hok
        intro x hx
        rcases List.mem_cons.mp hx with rfl | hx
        · exact hl x (by simp)
        · exact ih p.1 (fun y hy => hl y (by simp [hy])) (by rw [hrec]) x hx

theorem modifyFirst_preserves_firstFinalized (l : List Token) (a b : String)
    (f : Token → Except Err Token) (l2 : List Token) (t2 : Token)
    (hid : ∀ t u, f t = .ok u → u.assetId = t.assetId)
    (hfin : ∀ t u, f t = .ok u → t.finalized = true → u.finalized = true)
    (hok : modifyFirst l b f = .ok (l2, t2))
    (h : FirstFinalized a l) : FirstFinalized a l2 := by
  induction l generalizing l2 with
  | nil => simp [modifyFirst] at hok
  | cons u ts ih =>
    obtain ⟨w, hw, hwfin⟩ := h
    by_cases hu : u.assetId = b
    · simp only [modifyFirst, if_pos hu] at hok
      cases hfu : f u with
      | error e => rw [hfu] at hok; cases hok
      | ok v =>
        rw [hfu] at hok
        cases hok
        by_cases hua : u.assetId = a
        · rw [List.find?_cons_of_pos _ (by simp [hua])] at hw
          cases hw
          refine ⟨t2, ?_, hfin _ _ hfu hwfin⟩
          rw [List.find?_cons_of_pos _ (by simp [hid u t2 hfu, hua])]
        · rw [List.find?_cons_of_neg _ (by simp [hua])] at hw
          refine ⟨w, ?_, hwfin⟩
          rw [List.find?_cons_of_neg _ (by simp [hid u t2 hfu, hua]), hw]
    · simp only [modifyFirst, if_neg hu] at hok
      cases hrec : modifyFirst ts b f with
      | error e => rw [hrec] at hok; cases hok
      | ok p =>
        rw [hrec] at hok
        cases hok
        by_cases hua : u.assetId = a
        · rw [List.find?_cons_of_pos _ (by simp [hua])] at hw
          cases hw
          exact ⟨u, by rw [List.find?_cons_of_pos _ (by simp [hua])], hwfin⟩
        · rw [List.find?_cons_of_neg _ (by simp [hua])] at hw
          obtain ⟨w2, hw2, hw2fin⟩ := ih p.1 (by rw [hrec]) ⟨w, hw, hwfin⟩
          exact ⟨w2, by rw [List.find?_cons_of_neg _ (by simp [hua]), hw2], hw2fin⟩

theorem find?_append_some (l l2 : List Token) (p : Token → Bool) (t : Token)
    (h : l.find? p = some t) : (l ++ l2).find? p = some t := by
  induction l with
  | nil => simp [List.find?_nil] at h
  | cons u ts ih =>
    cases hu : p u with
    | true =>
      rw [List.find?_cons_of_pos _ hu] at h
      cases h
      rw [List.cons_append, List.find?_cons_of_pos _ hu]
    | false =>
      rw [List.find?_cons_of_neg _ (by simp [hu])] at h
      rw [List.cons_append, List.find?_cons_of_neg _ (by simp [hu])]
      exact ih h

theorem sumIssued_append (h1 h2 : List HistoryEntry) :
    sumIssued (h1 ++ h2) = sumIssued h1 + sumIssued h2 := by
  induction h1 with
  | nil => simp [sumIssued]
  | cons e es ih =>
    rw [List.cons_append]
    show _ + sumIssued (es ++ h2) = _ + sumIssued es + sumIssued h2
    rw [ih]
    ring

theorem sumBurned_append (h1 h2 : List HistoryEntry) :
    sumBurned (h1 ++ h2) = sumBurned h1 + sumBurned h2 := by
  induction h1 with
  | nil => simp [sumBurned]
  | cons e es ih =>
    rw [List.cons_append]
    show _ + sumBurned (es ++ h2) = _ + sumBurned es + sumBurned h2
    rw [ih]
    ring

theorem issueMoreToken_supplyInv (amt : Int) (recip : String) (t t2 : Token)
    (hamt : 0 ≤ amt) (hinv : SupplyInv t)
    (hok : issueMoreToken amt recip t = .ok t2) : SupplyInv t2 := by
  obtain ⟨heq, hlo, hhi⟩ := hinv
  unfold issueMoreToken at hok
  by_cases hfin : t.finalized = true
  · simp [hfin] at hok
  · rw [if_neg hfin] at hok
    by_cases hmax : t.totalSupply + amt > MAX_ISSUE
    · rw [if_pos hmax] at hok
      cases hok
    · rw [if_neg hmax] at hok
      cases hok
      refine ⟨?_, ?_, ?_⟩
      · simp only [addHistoryEntry, sumIssued_append, sumBurned_append,
          sumIssued, sumBurned]
        simp
        omega
      · simp only [addHistoryEntry]
        omega
      · simp only [addHistoryEntry]
        omega

theorem finalizeTokenOne_supplyInv (t t2 : Token)
    (hinv : SupplyInv t) (hok : finalizeTokenOne t = .ok t2) : SupplyInv t2 := by
  obtain ⟨heq, hlo, hhi⟩ := hinv
  unfold finalizeTokenOne at hok
  by_cases hfin : t.finalized = true
  · simp [hfin] at hok
  · rw [if_neg hfin] at hok
    cases hok
    refine ⟨?_, ?_, ?_⟩
    · simp only [addHistoryEntry, sumIssued_append, sumBurned_append,
        sumIssued, sumBurned]
      simp
      omega
    · simp only [addHistoryEntry]
      omega
    · simp only [addHistoryEntry]
      omega

theorem burnTokensOne_supplyInv (amt : Int) (addr : String) (t t2 : Token)
    (hamt : 0 < amt) (hinv : SupplyInv t)
    (hok : burnTokensOne amt addr t = .ok t2) : SupplyInv t2 := by
  obtain ⟨heq, hlo, hhi⟩ := hinv
  unfold burnTokensOne at hok
  by_cases hover : amt > t.totalSupply
  · simp [hover] at hok
  · rw [if_neg hover] at hok
    cases hok
    refine ⟨?_, ?_, ?_⟩
    · simp only [addHistoryEntry, sumIssued_append, sumBurned_append,
        sumIssued, sumBurned]
      simp
      omega
    · simp only [addHistoryEntry]
      omega
    · simp only [addHistoryEntry]
      omega

/-- Appending a history entry that is neither an `issuance` nor a `burn`
leaves the supply invariant intact. -/
theorem supplyInv_addHistoryEntry (t : Token) (e : HistoryEntry)
    (he1 : e.type ≠ .issuance) (he2 : e.type ≠ .burn) (h : SupplyInv t) :
    SupplyInv (addHistoryEntry t e) := by
  obtain ⟨heq, hlo, hhi⟩ := h
  refine ⟨?_, hlo, hhi⟩
  show t.totalSupply =
    t.initialSupply + sumIssued (t.history ++ [e]) - sumBurned (t.history ++ [e])
  rw [sumIssued_append, sumBurned_append]
  have h1 : sumIssued [e] = 0 := by simp [sumIssued, he1]
  have h2 : sumBurned [e] = 0 := by simp [sumBurned, he2]
  rw [h1, h2]
  omega

/-- The invariant `SupplyInv` only reads the supply fields and the history. -/
theorem supplyInv_of_fields (t u : Token)
    (h1 : u.initialSupply = t.initialSupply) (h2 : u.totalSupply = t.totalSupply)
    (h3 : u.history = t.history) (h : SupplyInv t) : SupplyInv u := by
  obtain ⟨heq, hlo, hhi⟩ := h
  refine ⟨?_, ?_, ?_⟩
  · rw [h1, h2, h3]
    exact heq
  · rw [h2]
    exact hlo
  · rw [h2]
    exact hhi

theorem updateTokenStatusOne_fields (st : String) (tx : Option String) (t : Token) :
    (updateTokenStatusOne st tx t).initialSupply = t.initialSupply ∧
    (updateTokenStatusOne st tx t).totalSupply = t.totalSupply ∧
    sumIssued (updateTokenStatusOne st tx t).history = sumIssued t.history ∧
    sumBurned (updateTokenStatusOne st tx t).history = sumBurned t.history := by
  cases tx <;> simp only [updateTokenStatusOne] <;> split_ifs <;>
    refine ⟨rfl, rfl, ?_, ?_⟩ <;>
    first
      | rfl
      | simp [addHistoryEntry, sumIssued_append, sumBurned_append,
          sumIssued, sumBurned]

theorem updateTokenStatusOne_supplyInv (st : String) (tx : Option String)
    (t : Token) (hinv : SupplyInv t) :
    SupplyInv (updateTokenStatusOne st tx t) := by
  obtain ⟨h1, h2, h3, h4⟩ := updateTokenStatusOne_fields st tx t
  obtain ⟨heq, hlo, hhi⟩ := hinv
  refine ⟨?_, ?_, ?_⟩
  · rw [h1, h2, h3, h4]
    exact heq
  · rw [h2]
    exact hlo
  · rw [h2]
    exact hhi

theorem createToken_supplyInv (s : TokenStore) (p : CreateParams)
    (hs : StoreSupplyInv s) (hp : 0 ≤ p.initialSupply) :
    StoreSupplyInv (createToken s p).1 := by
  unfold createToken
  split_ifs with h1 h2 h3
  · exact hs
  · exact hs
  · exact hs
  · intro t ht
    simp only at ht
    rcases List.mem_append.mp ht with ht | ht
    · exact hs t ht
    · simp only [List.mem_singleton] at ht
      subst ht
      refine ⟨?_, hp, ?_⟩
      · simp [addHistoryEntry, sumIssued, sumBurned]
      · show p.initialSupply ≤ MAX_ISSUE
        omega

theorem issueMore_supplyInv (s : TokenStore) (a : String) (amt : Int)
    (recip : String) (hs : StoreSupplyInv s) (hamt : 0 ≤ amt) :
    StoreSupplyInv (issueMore s a amt recip).1 := by
  unfold issueMore
  cases hm : modifyFirst s.tokens a (issueMoreToken amt recip) with
  | error e => exact hs
  | ok p =>
    intro t ht
    exact modifyFirst_forall s.tokens a _ p.1 p.2 SupplyInv
      (fun u v hu hv => issueMoreToken_supplyInv amt recip u v hamt hu hv)
      hs (by rw [hm]) t ht

theorem finalizeToken_supplyInv (s : TokenStore) (a : String)
    (hs : StoreSupplyInv s) : StoreSupplyInv (finalizeToken s a).1 := by
  unfold finalizeToken
  cases hm : modifyFirst s.tokens a finalizeTokenOne with
  | error e => exact hs
  | ok p =>
    intro t ht
    exact modifyFirst_forall s.tokens a _ p.1 p.2 SupplyInv
      (fun u v hu hv => finalizeTokenOne_supplyInv u v hu hv)
      hs (by rw [hm]) t ht

theorem burnTokens_supplyInv (s : TokenStore) (a : String) (amt : Int)
    (addr : String) (hs : StoreSupplyInv s) :
    StoreSupplyInv (burnTokens s a amt addr).1 := by
  unfold burnTokens
  split_ifs with hle
  · exact hs
  · cases hm : modifyFirst s.tokens a (burnTokensOne amt addr) with
    | error e => exact hs
    | ok p =>
      intro t ht
      exact modifyFirst_forall s.tokens a _ p.1 p.2 SupplyInv
        (fun u v hu hv => burnTokensOne_supplyInv amt addr u v (by omega) hu hv)
        hs (by rw [hm]) t ht

theorem updateTokenStatus_supplyInv (s : TokenStore) (a st : String)
    (tx : Option String) (hs : StoreSupplyInv s) :
    StoreSupplyInv (updateTokenStatus s a st tx).1 := by
  unfold updateTokenStatus
  cases hm : modifyFirst s.tokens a
      (fun t => .ok (updateTokenStatusOne st tx t)) with
  | error e => exact hs
  | ok p =>
    intro t ht
    refine modifyFirst_forall s.tokens a _ p.1 p.2 SupplyInv
      (fun u v hu hv => ?_) hs (by rw [hm]) t ht
    cases hv
    exact updateTokenStatusOne_supplyInv st tx u hu

theorem deployToken_supplyInv (s : TokenStore) (a : String) (mine : Bool)
    (o : RunIssueOutcome) (hs : StoreSupplyInv s) :
    StoreSupplyInv (deployToken s a mine o).1 := by
  have h1 := updateTokenStatus_supplyInv s a "deploying" none hs
  have h2 := updateTokenStatus_supplyInv _ a "failed" none h1
  simp only [deployToken]
  split
  next => exact hs
  next token =>
    split_ifs with hdep
    · exact hs
    · split
      next code msg => exact h2
      next resp =>
        split
        next txid htx =>
          split_ifs with he
          · exact h2
          · exact updateTokenStatus_supplyInv _ a "deployed" (some txid) h1
        next htx => exact h2

theorem applyOp_supplyInv (s : TokenStore) (op : LedgerOp)
    (hs : StoreSupplyInv s) (hop : OpNonneg op) :
    StoreSupplyInv (applyOp s op) := by
  cases op with
  | create p => exact createToken_supplyInv s p hs hop
  | issue a amt r => exact issueMore_supplyInv s a amt r hs hop
  | finalize a => exact finalizeToken_supplyInv s a hs
  | burn a amt addr => exact burnTokens_supplyInv s a amt addr hs
  | deploy a m o => exact deployToken_supplyInv s a m o hs

theorem applyOps_supplyInv (s : TokenStore) (ops : List LedgerOp)
    (hs : StoreSupplyInv s) (hops : ∀ op ∈ ops, OpNonneg op) :
    StoreSupplyInv (applyOps s ops) := by
  induction ops generalizing s with
  | nil => exact hs
  | cons op rest ih =>
    exact ih (applyOp s op)
      (applyOp_supplyInv s op hs (hops op (by simp)))
      (fun x hx => hops x (by simp [hx]))

theorem createToken_overflow_rejected (s : TokenStore) (p : CreateParams)
    (h : MAX_ISSUE < p.initialSupply) :
    ∃ msg, createToken s p = (s, .error (.validation msg)) := by
  unfold createToken
  split_ifs with h1 h2
  · exact ⟨_, rfl⟩
  · exact ⟨_, rfl⟩
  · exact ⟨_, rfl⟩

theorem issueMore_overflow_rejected (s : TokenStore) (a : String) (amt : Int)
    (r : String) (t : Token)
    (hfind : s.tokens.find? (fun u => u.assetId = a) = some t)
    (hfin : t.finalized = false) (hover : MAX_ISSUE < t.totalSupply + amt) :
    issueMore s a amt r =
      (s, .error (.validation "Total supply would exceed maximum")) := by
  have herr : issueMoreToken amt r t =
      .error (.validation "Total supply would exceed maximum") := by
    unfold issueMoreToken
    rw [if_neg (by simp [hfin]), if_pos hover]
  unfold issueMore
  rw [modifyFirst_of_find_error s.tokens a _ t _ hfind herr]

theorem burnTokens_nonpos_rejected (s : TokenStore) (a : String) (amt : Int)
    (addr : String) (h : amt ≤ 0) :
    burnTokens s a amt addr =
      (s, .error (.validation "Burn amount must be greater than zero")) := by
  unfold burnTokens
  rw [if_pos h]

theorem burnTokens_overdraw_rejected (s : TokenStore) (a : String) (amt : Int)
    (addr : String) (t : Token)
    (hfind : s.tokens.find? (fun u => u.assetId = a) = some t)
    (hpos : 0 < amt) (hover : t.totalSupply < amt) :
    burnTokens s a amt addr =
      (s, .error (.conflict "Burn amount exceeds total supply")) := by
  have herr : burnTokensOne amt addr t =
      .error (.conflict "Burn amount exceeds total supply") := by
    unfold burnTokensOne
    rw [if_pos (by omega)]
  unfold burnTokens
  rw [if_neg (by omega), modifyFirst_of_find_error s.tokens a _ t _ hfind herr]

/-- C1 (amended): supply conservation.  Whenever every `createToken`
initial supply and every `issueMore` amount in a command sequence is
nonnegative, every token of the resulting store satisfies
`totalSupply = initialSupply + Σ issuance amounts − Σ burn amounts` over its
history together with `0 ≤ totalSupply ≤ MAX_ISSUE`; and at that store (as
at any reached point) the operations that would break the bounds are
rejected with the store unchanged: a creation above `MAX_ISSUE` and an
issuance pushing a (non-finalized) token past `MAX_ISSUE` fail with a
validation error, a non-positive burn fails with a validation error, and a
burn exceeding the supply fails with a conflict error.  The nonnegativity
restriction is forced by `C1_counterexample`: the source accepts negative
amounts. -/
theorem C1_amended (s : TokenStore) (ops : List LedgerOp)
    (hs : StoreSupplyInv s) (hops : ∀ op ∈ ops, OpNonneg op) :
    StoreSupplyInv (applyOps s ops) ∧
    (∀ p : CreateParams, MAX_ISSUE < p.initialSupply →
      ∃ msg, createToken (applyOps s ops) p =
        (applyOps s ops, .error (.validation msg))) ∧
    (∀ a amt r t,
      (applyOps s ops).tokens.find? (fun u => u.assetId = a) = some t →
      t.finalized = false → MAX_ISSUE < t.totalSupply + amt →
      issueMore (applyOps s ops) a amt r =
        (applyOps s ops, .error (.validation "Total supply would exceed maximum"))) ∧
    (∀ a amt addr, amt ≤ 0 →
      burnTokens (applyOps s ops) a amt addr =
        (applyOps s ops, .error (.validation "Burn amount must be greater than zero"))) ∧
    (∀ a amt addr t,
      (applyOps s ops).tokens.find? (fun u => u.assetId = a) = some t →
      0 < amt → t.totalSupply < amt →
      burnTokens (applyOps s ops) a amt addr =
        (applyOps s ops, .error (.conflict "Burn amount exceeds total supply"))) := by
  refine ⟨applyOps_supplyInv s ops hs hops,
    fun p hp => createToken_overflow_rejected _ p hp,
    fun a amt r t hfind hfin hover =>
      issueMore_overflow_rejected _ a amt r t hfind hfin hover,
    fun a amt addr hle => burnTokens_nonpos_rejected _ a amt addr hle,
    fun a amt addr t hfind hpos hover =>
      burnTokens_overdraw_rejected _ a amt addr t hfind hpos hover⟩

set_option maxRecDepth 100000 in
/-- C1 counterexample: `createToken` accepts a *negative* initial supply
(`BigInt('-5')` passes both the truthiness check and the `> MAX_ISSUE`
check), so an operation that violates `0 ≤ totalSupply` succeeds and mutates
the store instead of being rejected. -/
theorem C1_counterexample :
    ((createToken { issuer := "aaaaaaaaaaaaaaaaaaaaaaaaaaaaaaaaaaaaaaaaaaaaaaaaaaaaaaaaaaaaaaaa", nextId := 0, tokens := [] }
        { name := "PepeCoin", symbol := "PEPE", description := "",
          initialSupply := -5, recipientAddress := "zaddr1", finalize := false }).2.toOption.isSome = true) ∧
    ((createToken { issuer := "aaaaaaaaaaaaaaaaaaaaaaaaaaaaaaaaaaaaaaaaaaaaaaaaaaaaaaaaaaaaaaaa", nextId := 0, tokens := [] }
        { name := "PepeCoin", symbol := "PEPE", description := "",
          initialSupply := -5, recipientAddress := "zaddr1", finalize := false }).1.tokens.map Token.totalSupply = [-5]) ∧
    ¬ StoreSupplyInv (createToken { issuer := "aaaaaaaaaaaaaaaaaaaaaaaaaaaaaaaaaaaaaaaaaaaaaaaaaaaaaaaaaaaaaaaa", nextId := 0, tokens := [] }
        { name := "PepeCoin", symbol := "PEPE", description := "",
          initialSupply := -5, recipientAddress := "zaddr1", finalize := false }).1 := by
  decide

set_option maxRecDepth 100000 in
/-- Witness for `C1_amended`: the invariant holds after a concrete issuance
and burn on the sample token, and each bound-breaking operation on the
sample store is rejected with the store unchanged. -/
theorem C1_amended_witness :
    StoreSupplyInv (applyOps sampleStore
      [LedgerOp.issue "x" 5 "r", LedgerOp.burn "x" 3 "zinc"]) ∧
    (∃ msg, createToken sampleStore
      { name := "PepeCoin", symbol := "PEPE", description := "",
        initialSupply := 18446744073709551616, recipientAddress := "zaddr1" } =
      (sampleStore, .error (.validation msg))) ∧
    issueMore sampleStore "x" 18446744073709551615 "r" =
      (sampleStore, .error (.validation "Total supply would exceed maximum")) ∧
    burnTokens sampleStore "x" 0 "zinc" =
      (sampleStore, .error (.validation "Burn amount must be greater than zero")) ∧
    burnTokens sampleStore "x" 11 "zinc" =
      (sampleStore, .error (.conflict "Burn amount exceeds total supply")) := by
  have h0 := C1_amended sampleStore [] (by decide) (by decide)
  refine ⟨(C1_amended sampleStore
      [LedgerOp.issue "x" 5 "r", LedgerOp.burn "x" 3 "zinc"]
      (by decide) (by decide)).1, ?_, ?_, ?_, ?_⟩
  · exact h0.2.1 _ (by decide)
  · exact h0.2.2.1 "x" 18446744073709551615 "r" sampleToken
      (by decide) (by decide) (by decide)
  · exact h0.2.2.2.1 "x" 0 "zinc" (by decide)
  · exact h0.2.2.2.2 "x" 11 "zinc" sampleToken
      (by decide) (by decide) (by decide)

/-! ## Finalization monotonicity (C3) -/

theorem issueMoreToken_assetId (amt : Int) (r : String) (t u : Token)
    (h : issueMoreToken amt r t = .ok u) : u.assetId = t.assetId := by
  unfold issueMoreToken at h
  by_cases hfin : t.finalized = true
  · simp [hfin] at h
  · rw [if_neg hfin] at h
    by_cases hmax : t.totalSupply + amt > MAX_ISSUE
    · rw [if_pos hmax] at h
      cases h
    · rw [if_neg hmax] at h
      cases h
      rfl

theorem issueMoreToken_finalized (amt : Int) (r : String) (t u : Token)
    (h : issueMoreToken amt r t = .ok u) :
    t.finalized = true → u.finalized = true := by
  unfold issueMoreToken at h
  by_cases hfin : t.finalized = true
  · simp [hfin] at h
  · intro hc
    exact absurd hc hfin

theorem finalizeTokenOne_assetId (t u : Token)
    (h : finalizeTokenOne t = .ok u) : u.assetId = t.assetId := by
  unfold finalizeTokenOne at h
  split_ifs at h
  cases h
  rfl

theorem finalizeTokenOne_finalized (t u : Token)
    (h : finalizeTokenOne t = .ok u) : u.finalized = true := by
  unfold finalizeTokenOne at h
  split_ifs at h
  cases h
  rfl

theorem burnTokensOne_assetId (amt : Int) (addr : String) (t u : Token)
    (h : burnTokensOne amt addr t = .ok u) : u.assetId = t.assetId := by
  unfold burnTokensOne at h
  split_ifs at h
  cases h
  rfl

theorem burnTokensOne_finalized (amt : Int) (addr : String) (t u : Token)
    (h : burnTokensOne amt addr t = .ok u) : u.finalized = t.finalized := by
  unfold burnTokensOne at h
  split_ifs at h
  cases h
  rfl

theorem updateTokenStatusOne_id_fin (st : String) (tx : Option String)
    (t : Token) :
    (updateTokenStatusOne st tx t).assetId = t.assetId ∧
    (updateTokenStatusOne st tx t).finalized = t.finalized := by
  cases tx <;> simp only [updateTokenStatusOne] <;> split_ifs <;>
    exact ⟨rfl, rfl⟩

theorem createToken_preserves_ff (s : TokenStore) (p : CreateParams)
    (a : String) (h : FirstFinalized a s.tokens) :
    FirstFinalized a (createToken s p).1.tokens := by
  unfold createToken
  split_ifs
  · exact h
  · exact h
  · exact h
  · obtain ⟨t, ht, hfin⟩ := h
    exact ⟨t, find?_append_some _ _ _ _ ht, hfin⟩

theorem issueMore_preserves_ff (s : TokenStore) (aid : String) (amt : Int)
    (r : String) (a : String) (h : FirstFinalized a s.tokens) :
    FirstFinalized a (issueMore s aid amt r).1.tokens := by
  unfold issueMore
  cases hm : modifyFirst s.tokens aid (issueMoreToken amt r) with
  | error e => exact h
  | ok p =>
    exact modifyFirst_preserves_firstFinalized s.tokens a aid _ p.1 p.2
      (fun t u hu => issueMoreToken_assetId amt r t u hu)
      (fun t u hu => issueMoreToken_finalized amt r t u hu)
      (by rw [hm]) h

theorem finalizeToken_preserves_ff (s : TokenStore) (aid : String)
    (a : String) (h : FirstFinalized a s.tokens) :
    FirstFinalized a (finalizeToken s aid).1.tokens := by
  unfold finalizeToken
  cases hm : modifyFirst s.tokens aid finalizeTokenOne with
  | error e => exact h
  | ok p =>
    exact modifyFirst_preserves_firstFinalized s.tokens a aid _ p.1 p.2
      (fun t u hu => finalizeTokenOne_assetId t u hu)
      (fun t u hu _ => finalizeTokenOne_finalized t u hu)
      (by rw [hm]) h

theorem burnTokens_preserves_ff (s : TokenStore) (aid : String) (amt : Int)
    (addr : String) (a : String) (h : FirstFinalized a s.tokens) :
    FirstFinalized a (burnTokens s aid amt addr).1.tokens := by
  unfold burnTokens
  split_ifs
  · exact h
  · cases hm : modifyFirst s.tokens aid (burnTokensOne amt addr) with
    | error e => exact h
    | ok p =>
      exact modifyFirst_preserves_firstFinalized s.tokens a aid _ p.1 p.2
        (fun t u hu => burnTokensOne_assetId amt addr t u hu)
        (fun t u hu hf => by rw [burnTokensOne_finalized amt addr t u hu]; exact hf)
        (by rw [hm]) h

theorem updateTokenStatus_preserves_ff (s : TokenStore) (aid st : String)
    (tx : Option String) (a : String) (h : FirstFinalized a s.tokens) :
    FirstFinalized a (updateTokenStatus s aid st tx).1.tokens := by
  unfold updateTokenStatus
  cases hm : modifyFirst s.tokens aid
      (fun t => .ok (updateTokenStatusOne st tx t)) with
  | error e => exact h
  | ok p =>
    refine modifyFirst_preserves_firstFinalized s.tokens a aid _ p.1 p.2
      (fun t u hu => ?_) (fun t u hu hf => ?_) (by rw [hm]) h
    · cases hu
      exact (updateTokenStatusOne_id_fin st tx t).1
    · cases hu
      rw [(updateTokenStatusOne_id_fin st tx t).2]
      exact hf

theorem deployToken_preserves_ff (s : TokenStore) (aid : String)
    (mine : Bool) (o : RunIssueOutcome) (a : String)
    (h : FirstFinalized a s.tokens) :
    FirstFinalized a (deployToken s aid mine o).1.tokens := by
  have h1 := updateTokenStatus_preserves_ff s aid "deploying" none a h
  have h2 := updateTokenStatus_preserves_ff _ aid "failed" none a h1
  simp only [deployToken]
  split
  next => exact h
  next token =>
    split_ifs with hdep
    · exact h
    · split
      next code msg => exact h2
      next resp =>
        split
        next txid htx =>
          split_ifs with he
          · exact h2
          · exact updateTokenStatus_preserves_ff _ aid "deployed" (some txid) a h1
        next htx => exact h2

theorem applyOp_preserves_ff (s : TokenStore) (op : LedgerOp) (a : String)
    (h : FirstFinalized a s.tokens) :
    FirstFinalized a (applyOp s op).tokens := by
  cases op with
  | create p => exact createToken_preserves_ff s p a h
  | issue aid amt r => exact issueMore_preserves_ff s aid amt r a h
  | finalize aid => exact finalizeToken_preserves_ff s aid a h
  | burn aid amt addr => exact burnTokens_preserves_ff s aid amt addr a h
  | deploy aid m o => exact deployToken_preserves_ff s aid m o a h

theorem applyOps_preserves_ff (s : TokenStore) (ops : List LedgerOp)
    (a : String) (h : FirstFinalized a s.tokens) :
    FirstFinalized a (applyOps s ops).tokens := by
  induction ops generalizing s with
  | nil => exact h
  | cons op rest ih => exact ih (applyOp s op) (applyOp_preserves_ff s op a h)

theorem issueMore_finalized_conflict (s : TokenStore) (a : String)
    (amt : Int) (r : String) (h : FirstFinalized a s.tokens) :
    issueMore s a amt r =
      (s, .error (.conflict "Token is finalized. No more tokens can be issued.")) := by
  obtain ⟨t, ht, hfin⟩ := h
  have herr : issueMoreToken amt r t =
      .error (.conflict "Token is finalized. No more tokens can be issued.") := by
    unfold issueMoreToken
    rw [if_pos hfin]
  unfold issueMore
  rw [modifyFirst_of_find_error s.tokens a _ t _ ht herr]

theorem finalizeToken_finalized_conflict (s : TokenStore) (a : String)
    (h : FirstFinalized a s.tokens) :
    finalizeToken s a = (s, .error (.conflict "Token is already finalized")) := by
  obtain ⟨t, ht, hfin⟩ := h
  have herr : finalizeTokenOne t = .error (.conflict "Token is already finalized") := by
    unfold finalizeTokenOne
    rw [if_pos hfin]
  unfold finalizeToken
  rw [modifyFirst_of_find_error s.tokens a _ t _ ht herr]

theorem finalizeToken_ok_firstFinalized (s : TokenStore) (a : String)
    (s1 : TokenStore) (t1 : Token) (h : finalizeToken s a = (s1, .ok t1)) :
    FirstFinalized a s1.tokens := by
  unfold finalizeToken at h
  cases hm : modifyFirst s.tokens a finalizeTokenOne with
  | error e =>
    rw [hm] at h
    simp at h
  | ok p =>
    rw [hm] at h
    simp only [Prod.mk.injEq, Except.ok.injEq] at h
    obtain ⟨hs1, ht1⟩ := h
    have hfind := modifyFirst_find_after s.tokens a finalizeTokenOne p.1 p.2
      (fun t u hu => finalizeTokenOne_assetId t u hu) (by rw [hm])
    obtain ⟨t, -, hft⟩ := modifyFirst_exists s.tokens a finalizeTokenOne p.1 p.2 (by rw [hm])
    refine ⟨p.2, ?_, finalizeTokenOne_finalized t p.2 hft⟩
    rw [← hs1]
    exact hfind

/-- C3: once `finalizeToken` has succeeded on an assetId, then after *any*
further sequence of ledger operations, `issueMore` on that assetId fails with
the finalized-conflict error and returns the store unchanged (so no issuance
entry is ever appended and `totalSupply` is untouched), and a second
`finalizeToken` fails with the already-finalized conflict, also leaving the
store unchanged. -/
theorem C3_finalization (s : TokenStore) (a : String) (s1 : TokenStore)
    (t1 : Token) (hfin : finalizeToken s a = (s1, .ok t1))
    (ops : List LedgerOp) (amt : Int) (recip : String) :
    issueMore (applyOps s1 ops) a amt recip =
      (applyOps s1 ops,
       .error (.conflict "Token is finalized. No more tokens can be issued.")) ∧
    finalizeToken (applyOps s1 ops) a =
      (applyOps s1 ops, .error (.conflict "Token is already finalized")) := by
  have h1 := finalizeToken_ok_firstFinalized s a s1 t1 hfin
  have h2 := applyOps_preserves_ff s1 ops a h1
  exact ⟨issueMore_finalized_conflict _ a amt recip h2,
    finalizeToken_finalized_conflict _ a h2⟩

/-- Witness for `C3_finalization`: finalize the sample token, burn from it
afterwards (burns stay permitted), then both follow-up calls fail with the
conflict errors and leave the store unchanged. -/
theorem C3_finalization_witness :
    issueMore (applyOps sampleFinalizedStore [LedgerOp.burn "x" 1 "zinc"]) "x" 1 "r" =
      (applyOps sampleFinalizedStore [LedgerOp.burn "x" 1 "zinc"],
       .error (.conflict "Token is finalized. No more tokens can be issued.")) ∧
    finalizeToken (applyOps sampleFinalizedStore [LedgerOp.burn "x" 1 "zinc"]) "x" =
      (applyOps sampleFinalizedStore [LedgerOp.burn "x" 1 "zinc"],
       .error (.conflict "Token is already finalized")) :=
  C3_finalization sampleStore "x" sampleFinalizedStore sampleFinalizedToken
    (by decide) [LedgerOp.burn "x" 1 "zinc"] 1 "r"

/-! ## createToken validation (C4) -/

/-- C4: on an empty name, empty symbol, empty recipient, out-of-range symbol
length, or an initial supply above `MAX_ISSUE`, `createToken` returns a
validation error and the store it returns is exactly the input store — no
record is created. -/
theorem C4_createToken_validation (s : TokenStore) (p : CreateParams)
    (h : p.name = "" ∨ p.symbol = "" ∨ p.recipientAddress = "" ∨
         p.symbol.length < 2 ∨ p.symbol.length > 10 ∨
         p.initialSupply > MAX_ISSUE) :
    (createToken s p).1 = s ∧
    ∃ msg, (createToken s p).2 = .error (.validation msg) := by
  unfold createToken
  split_ifs with h1 h2 h3
  · exact ⟨rfl, _, rfl⟩
  · exact ⟨rfl, _, rfl⟩
  · exact ⟨rfl, _, rfl⟩
  · exfalso
    rcases h with h | h | h | h | h | h
    · exact h1 (Or.inl h)
    · exact h1 (Or.inr (Or.inl h))
    · exact h1 (Or.inr (Or.inr h))
    · exact h2 (Or.inl h)
    · exact h2 (Or.inr h)
    · exact h3 h

/-- Witness for `C4_createToken_validation`: scenario E, creation with
`initialSupply = 2^64` fails and leaves the store unchanged. -/
theorem C4_createToken_validation_witness :
    (createToken sampleStore
      { name := "PepeCoin", symbol := "PEPE", description := "",
        initialSupply := 18446744073709551616, recipientAddress := "zaddr1" }).1 =
      sampleStore ∧
    ∃ msg, (createToken sampleStore
      { name := "PepeCoin", symbol := "PEPE", description := "",
        initialSupply := 18446744073709551616, recipientAddress := "zaddr1" }).2 =
      .error (.validation msg) :=
  C4_createToken_validation sampleStore _ (by decide)

/-! ## burnTokens behaviour (C5) -/

/-- C5: `burnTokens` rejects a non-positive amount with a validation error
before consulting the store, reports not-found for an unknown assetId,
rejects a burn exceeding the supply with a conflict (store unchanged in all
three cases), and otherwise decreases `totalSupply` by the amount, increases
`burnedSupply` by the same amount, appends exactly one `burn` entry and sets
status `pending_burn`. -/
theorem C5_burnTokens (s : TokenStore) (a : String) (amt : Int) (addr : String) :
    (amt ≤ 0 →
      burnTokens s a amt addr =
        (s, .error (.validation "Burn amount must be greater than zero"))) ∧
    (0 < amt → s.tokens.find? (fun u => u.assetId = a) = none →
      burnTokens s a amt addr = (s, .error (.notFound "Token not found"))) ∧
    (∀ t, 0 < amt → s.tokens.find? (fun u => u.assetId = a) = some t →
      t.totalSupply < amt →
      burnTokens s a amt addr =
        (s, .error (.conflict "Burn amount exceeds total supply"))) ∧
    (∀ t, 0 < amt → s.tokens.find? (fun u => u.assetId = a) = some t →
      amt ≤ t.totalSupply →
      ∃ t2, (burnTokens s a amt addr).2 = .ok t2 ∧
        (burnTokens s a amt addr).1.tokens.find? (fun u => u.assetId = a) = some t2 ∧
        t2.totalSupply = t.totalSupply - amt ∧
        t2.burnedSupply = t.burnedSupply + amt ∧
        t2.status = "pending_burn" ∧
        t2.history = t.history ++
          [{ type := .burn, amount := some amt, recipient := some addr }]) := by
  refine ⟨?_, ?_, ?_, ?_⟩
  · intro hle
    unfold burnTokens
    rw [if_pos hle]
  · intro hpos hnone
    unfold burnTokens
    rw [if_neg (by omega), modifyFirst_of_find_none s.tokens a _ hnone]
  · intro t hpos hfind hover
    have herr : burnTokensOne amt addr t =
        .error (.conflict "Burn amount exceeds total supply") := by
      unfold burnTokensOne
      rw [if_pos (by omega)]
    unfold burnTokens
    rw [if_neg (by omega), modifyFirst_of_find_error s.tokens a _ t _ hfind herr]
  · intro t hpos hfind hle
    have hbody : ∃ t2, burnTokensOne amt addr t = .ok t2 := by
      unfold burnTokensOne
      rw [if_neg (by omega)]
      exact ⟨_, rfl⟩
    obtain ⟨t2, hok⟩ := hbody
    obtain ⟨l2, hl2⟩ := modifyFirst_of_find_ok s.tokens a _ t t2 hfind hok
    have hafter := modifyFirst_find_after s.tokens a _ l2 t2
      (fun x y hy => burnTokensOne_assetId amt addr x y hy) hl2
    have hfields : t2.totalSupply = t.totalSupply - amt ∧
        t2.burnedSupply = t.burnedSupply + amt ∧
        t2.status = "pending_burn" ∧
        t2.history = t.history ++
          [{ type := .burn, amount := some amt, recipient := some addr }] := by
      unfold burnTokensOne at hok
      rw [if_neg (by omega)] at hok
      cases hok
      exact ⟨rfl, rfl, rfl, rfl⟩
    refine ⟨t2, ?_, ?_, hfields.1, hfields.2.1, hfields.2.2.1, hfields.2.2.2⟩
    · unfold burnTokens
      rw [if_neg (by omega), hl2]
    · unfold burnTokens
      rw [if_neg (by omega), hl2]
      exact hafter

/-- Witness for `C5_burnTokens` on the success branch (scenario D shape). -/
theorem C5_burnTokens_witness :
    ∃ t2, (burnTokens sampleStore "x" 2 INCINERATOR_ADDRESS).2 = .ok t2 ∧
      (burnTokens sampleStore "x" 2 INCINERATOR_ADDRESS).1.tokens.find?
        (fun u => u.assetId = "x") = some t2 ∧
      t2.totalSupply = sampleToken.totalSupply - 2 ∧
      t2.burnedSupply = sampleToken.burnedSupply + 2 ∧
      t2.status = "pending_burn" ∧
      t2.history = sampleToken.history ++
        [{ type := .burn, amount := some 2, recipient := some INCINERATOR_ADDRESS }] :=
  (C5_burnTokens sampleStore "x" 2 INCINERATOR_ADDRESS).2.2.2 sampleToken
    (by decide) (by decide) (by decide)

/-! ## deployToken failure handling (C6) -/

theorem updateTokenStatus_find (s : TokenStore) (a st : String)
    (tx : Option String) (t : Token)
    (hfind : s.tokens.find? (fun u => u.assetId = a) = some t) :
    (updateTokenStatus s a st tx).1.tokens.find? (fun u => u.assetId = a) =
      some (updateTokenStatusOne st tx t) := by
  obtain ⟨l2, hl2⟩ := modifyFirst_of_find_ok s.tokens a
    (fun u => .ok (updateTokenStatusOne st tx u)) t _ hfind rfl
  unfold updateTokenStatus
  rw [hl2]
  exact modifyFirst_find_after s.tokens a _ l2 _
    (fun x y hy => by cases hy; exact (updateTokenStatusOne_id_fin st tx x).1) hl2

/-- C6: for a deploy attempt on an existing, not-yet-deployed token: if the
TransactionIssuer invocation rejects, or resolves without a (truthy) `tx_id`,
the error is re-raised while the token's status is set to `failed` with a
`deployment_failed` entry appended; on success the call returns the
transaction id, sets status `deployed`, records the `transactionId`, and
appends a `deployment` entry. -/
theorem C6_deployToken (s : TokenStore) (a : String) (mine : Bool) (t : Token)
    (hfind : s.tokens.find? (fun u => u.assetId = a) = some t)
    (hstat : ¬ t.status = "deployed") :
    (∀ code msg,
      (deployToken s a mine (.err code msg)).2 =
        .error (classifyDeployError code msg) ∧
      ∃ t2, (deployToken s a mine (.err code msg)).1.tokens.find?
          (fun u => u.assetId = a) = some t2 ∧
        t2.status = "failed" ∧
        t2.history = t.history ++ [{ type := .deployment_failed }]) ∧
    (∀ txf : Option String, txf = none ∨ txf = some "" →
      (deployToken s a mine (.ok ⟨txf⟩)).2 =
        .error (.tool "Issue command did not return a transaction id; aborting deployment.") ∧
      ∃ t2, (deployToken s a mine (.ok ⟨txf⟩)).1.tokens.find?
          (fun u => u.assetId = a) = some t2 ∧
        t2.status = "failed" ∧
        t2.history = t.history ++ [{ type := .deployment_failed }]) ∧
    (∀ txid : String, txid ≠ "" →
      (deployToken s a mine (.ok ⟨some txid⟩)).2 =
        .ok { success := true, transactionId := txid, assetId := a } ∧
      ∃ t2, (deployToken s a mine (.ok ⟨some txid⟩)).1.tokens.find?
          (fun u => u.assetId = a) = some t2 ∧
        t2.status = "deployed" ∧
        t2.transactionId = some txid ∧
        t2.history = t.history ++
          [{ type := .deployment, transactionId := some txid }]) := by
  have hdep1 : (updateTokenStatus s a "deploying").1.tokens.find?
      (fun u => u.assetId = a) = some (updateTokenStatusOne "deploying" none t) :=
    updateTokenStatus_find s a "deploying" none t hfind
  have hfail : ((updateTokenStatus (updateTokenStatus s a "deploying").1
        a "failed").1).tokens.find? (fun u => u.assetId = a) =
      some (updateTokenStatusOne "failed" none
        (updateTokenStatusOne "deploying" none t)) :=
    updateTokenStatus_find _ a "failed" none _ hdep1
  refine ⟨?_, ?_, ?_⟩
  · intro code msg
    have hred : deployToken s a mine (.err code msg) =
        ((updateTokenStatus (updateTokenStatus s a "deploying").1 a "failed").1,
         .error (classifyDeployError code msg)) := by
      unfold deployToken getTokenByAssetId
      simp only [hfind, if_neg hstat]
    rw [hred]
    exact ⟨rfl, _, hfail, rfl, rfl⟩
  · intro txf hresp
    have hred : deployToken s a mine (.ok ⟨txf⟩) =
        ((updateTokenStatus (updateTokenStatus s a "deploying").1 a "failed").1,
         .error (.tool "Issue command did not return a transaction id; aborting deployment.")) := by
      rcases hresp with rfl | rfl
      · unfold deployToken getTokenByAssetId
        simp only [hfind, if_neg hstat]
      · unfold deployToken getTokenByAssetId
        simp only [hfind, if_neg hstat]
        exact if_pos trivial
    rw [hred]
    exact ⟨rfl, _, hfail, rfl, rfl⟩
  · intro txid he
    have hred : deployToken s a mine (.ok ⟨some txid⟩) =
        ((updateTokenStatus (updateTokenStatus s a "deploying").1 a "deployed"
            (some txid)).1,
         .ok { success := true, transactionId := txid, assetId := a }) := by
      unfold deployToken getTokenByAssetId
      simp only [hfind, if_neg hstat, if_neg he]
    have hdone : ((updateTokenStatus (updateTokenStatus s a "deploying").1
          a "deployed" (some txid)).1).tokens.find? (fun u => u.assetId = a) =
        some (updateTokenStatusOne "deployed" (some txid)
          (updateTokenStatusOne "deploying" none t)) :=
      updateTokenStatus_find _ a "deployed" (some txid) _ hdep1
    have ht2 : updateTokenStatusOne "deployed" (some txid)
        (updateTokenStatusOne "deploying" none t) =
        addHistoryEntry
          { (updateTokenStatusOne "deploying" none t) with
              status := "deployed", transactionId := some txid }
          { type := .deployment, transactionId := some txid } := by
      simp only [updateTokenStatusOne]
      rw [if_neg he]
      exact if_pos trivial
    rw [ht2] at hdone
    rw [hred]
    exact ⟨rfl, _, hdone, rfl, rfl, rfl⟩

/-- Witness for `C6_deployToken`: a rejected subprocess marks the sample
token `failed` and re-raises. -/
theorem C6_deployToken_witness :
    (deployToken sampleStore "x" false (.err "ISSUE_COMMAND_FAILED" "boom")).2 =
      .error (classifyDeployError "ISSUE_COMMAND_FAILED" "boom") ∧
    ∃ t2, (deployToken sampleStore "x" false
        (.err "ISSUE_COMMAND_FAILED" "boom")).1.tokens.find?
        (fun u => u.assetId = "x") = some t2 ∧
      t2.status = "failed" ∧
      t2.history = sampleToken.history ++ [{ type := .deployment_failed }] :=
  (C6_deployToken sampleStore "x" false sampleToken (by decide) (by decide)).1
    "ISSUE_COMMAND_FAILED" "boom"

/-! ## Deploy payload amount (C7) -/

set_option maxRecDepth 100000 in
/-- C7 (code bug): `deployToken` converts the decimal-string supply with
`Number(...)`, an IEEE-754 binary64 conversion.  For the in-range supply
`2^64 − 1 = 18446744073709551615` the payload `amount` becomes
`18446744073709551616` — not equal to the token's `totalSupply` (and even
above `MAX_ISSUE`), contradicting the spec's exact-integer payload contract;
amounts are exact only up to `2^53`. -/
theorem C7_amount_rounded :
    (0:Int) ≤ ({ sampleToken with totalSupply := 18446744073709551615 } : Token).totalSupply ∧
    ({ sampleToken with totalSupply := 18446744073709551615 } : Token).totalSupply ≤ MAX_ISSUE ∧
    (mkIssuePayload { sampleToken with totalSupply := 18446744073709551615 } false).amount =
      18446744073709551616 ∧
    (mkIssuePayload { sampleToken with totalSupply := 18446744073709551615 } false).amount ≠
      ({ sampleToken with totalSupply := 18446744073709551615 } : Token).totalSupply := by
  decide

/-! ## Query tolerance (C9) -/

/-- C9 counterexample: the claim quantifies over *every* state of the
durable store, but a file whose contents parse to a non-array (for example
`{}`), or to an array containing `null`, makes the lookups built on
`getAllTokens` throw an uncaught `TypeError` instead of returning a
not-found result — and `getAllTokens` returns the non-array value, not an
empty collection. -/
theorem C9_counterexample :
    getAllTokensFile (.parsed .nonArray) = .nonArray ∧
    getAllTokensFile (.parsed .nonArray) ≠ .arr [] ∧
    getTokenByAssetIdFile (.parsed .nonArray) "x" =
      .error "TypeError: tokens.find is not a function" ∧
    getTokenByAssetIdFile (.parsed (.arr [.nullish])) "x" =
      .error "TypeError: Cannot read properties of null" ∧
    getTokenByIdFile (.parsed (.arr [.nullish])) 0 =
      .error "TypeError: Cannot read properties of null" ∧
    getTokensByIssuerFile (.parsed .nonArray) "i" =
      .error "TypeError: tokens.filter is not a function" ∧
    getTokensByIssuerFile (.parsed (.arr [.nullish])) "i" =
      .error "TypeError: Cannot read properties of null" := by
  decide

/-- C9 (amended): `getAllTokens` itself never throws — it returns the parsed
contents as-is, and an empty collection whenever the file is absent or its
contents are unreadable/unparseable; in those absent/unreadable states the
lookups built on it also do not throw and return a not-found result
(`none` / empty list).  (On a store parsing to a non-array, or to an array
with null entries, the lookups throw — see `C9_counterexample`.) -/
theorem C9_amended (f : StoreFile) (h : ∃ e, readStoreFile f = .error e) :
    getAllTokensFile f = .arr [] ∧
    (∀ a, getTokenByAssetIdFile f a = .ok none) ∧
    (∀ i, getTokenByIdFile f i = .ok none) ∧
    (∀ iss, getTokensByIssuerFile f iss = .ok []) ∧
    (∀ v, getAllTokensFile (.parsed v) = v) := by
  obtain ⟨e, he⟩ := h
  have h0 : getAllTokensFile f = .arr [] := by
    unfold getAllTokensFile
    rw [he]
  refine ⟨h0, ?_, ?_, ?_, fun v => rfl⟩
  · intro a
    unfold getTokenByAssetIdFile
    rw [h0]
    rfl
  · intro i
    unfold getTokenByIdFile
    rw [h0]
    rfl
  · intro iss
    unfold getTokensByIssuerFile
    rw [h0]
    rfl

/-- Witness for `C9_amended` at the absent-store state. -/
theorem C9_amended_witness :
    getAllTokensFile .absent = .arr [] ∧
    (∀ a, getTokenByAssetIdFile .absent a = .ok none) ∧
    (∀ i, getTokenByIdFile .absent i = .ok none) ∧
    (∀ iss, getTokensByIssuerFile .absent iss = .ok []) ∧
    (∀ v, getAllTokensFile (.parsed v) = v) :=
  C9_amended .absent ⟨_, rfl⟩

/-! ## Deploy payload finalize flag (C10) -/

/-- C10: the request payload built by `deployToken` always carries
`finalize := false`, whatever the token (in particular its `finalized` flag)
and options are. -/
theorem C10_payload_finalize_false (t : Token) (mine : Bool) :
    (mkIssuePayload t mine).finalize = false :=
  rfl
